import Mathlib

/-!
# go-avif: the two-pass AV1 still-image encode pipeline (`av1.c`, `av1.h`)

A shallow embedding of `av1.c`.  The libaom engine is a black box: it is an
oracle that answers every library call from the history of calls made so far,
and every call the C code makes is appended to that history, so the history is
at the same time the observable trace of a run.

* C `int` arithmetic is `Int` arithmetic followed by `wrap32` (two's complement).
* Pointers into the caller's pixel buffer are a base buffer and a byte offset.
* A library call that returns an `aom_codec_err_t` is recorded with a flag,
  `true` for a nonzero return; the C code tests nothing else.
* `aom_codec_av1_cx()` only names the interface; it is not recorded.
* `realloc` is taken to succeed (the C code does not test its result).
* The two `while` loops of each pass are bounded by a fuel argument; `none`
  means that the fuel ran out before the loop left.  Each theorem about a
  finished run holds for every engine and every fuel; that the run does finish
  is shown for the engines that stop handing out packets (`Engine.quiet_after`).
* `assert` is an exit of its own (`Exit.aborted`), distinct from every
  `avif_error` value (the file is taken to be built without `NDEBUG`).
-/

namespace Avif

/-! ## `av1.h` -/

/-- Bytes are only copied by this program, never computed with. -/
abbrev uint8_t := Nat

/-- `AVIF_MIN_SPEED` of the anonymous enum in `av1.h`. -/
def AVIF_MIN_SPEED : Int := 0
/-- `AVIF_MAX_SPEED` of the anonymous enum in `av1.h`. -/
def AVIF_MAX_SPEED : Int := 8
/-- `AVIF_MIN_QUALITY` of the anonymous enum in `av1.h`. -/
def AVIF_MIN_QUALITY : Int := 0
/-- `AVIF_MAX_QUALITY` of the anonymous enum in `av1.h`. -/
def AVIF_MAX_QUALITY : Int := 63

/-- The C enum `avif_error` is an `int`; `do_pass1`/`do_pass2` store the 0/1
packet flag of their helper in a variable of this type, so the embedding keeps
the integer. -/
abbrev avif_error := Int

/-- `AVIF_OK = 0`. -/
def AVIF_OK : avif_error := 0
/-- `AVIF_ERROR_GENERAL = -1000`. -/
def AVIF_ERROR_GENERAL : avif_error := -1000
/-- The enumerator after `AVIF_ERROR_GENERAL`. -/
def AVIF_ERROR_CODEC_INIT : avif_error := -999
/-- The enumerator after `AVIF_ERROR_CODEC_INIT`. -/
def AVIF_ERROR_CODEC_DESTROY : avif_error := -998
/-- The enumerator after `AVIF_ERROR_CODEC_DESTROY`. -/
def AVIF_ERROR_FRAME_ENCODE : avif_error := -997

/-- The C enum `avif_subsampling`, kept as its integer value: an object of the
enum type can hold a value that is none of its enumerators, and
`convert_subsampling` has a `default:` branch for exactly that. -/
abbrev avif_subsampling := Int

/-- The only enumerator of `avif_subsampling`. -/
def AVIF_SUBSAMPLING_I420 : avif_subsampling := 0

/-- The struct `avif_config`: three C `int`s. -/
structure avif_config where
  threads : Int
  speed : Int
  quality : Int
  deriving DecidableEq

/-- The struct `avif_frame`; `width` and `height` are `uint16_t` (a theorem
that needs the bound 65535 states it), `data` is the caller's packed pixel
buffer. -/
structure avif_frame where
  width : Nat
  height : Nat
  subsampling : avif_subsampling
  data : List uint8_t
  deriving DecidableEq

/-- The struct `avif_buffer`: `buf` holds the `sz` bytes stored at the C
pointer.  libaom's `aom_fixed_buf_t` has the same two fields. -/
structure avif_buffer where
  buf : List uint8_t
  sz : Nat
  deriving DecidableEq

/-- libaom's `aom_fixed_buf_t` (`void *buf; size_t sz;`). -/
abbrev aom_fixed_buf_t := avif_buffer

/-! ## Machine integers -/

/-- `INT_MAX` of a 32-bit `int`. -/
def INT_MAX : Int := 2147483647

/-- A mathematical integer reduced to a 32-bit two's-complement `int`. -/
def wrap32 (x : Int) : Int := (x + 2147483648) % 4294967296 - 2147483648

/-- Conversion of an `int` to `unsigned int`. -/
def to_unsigned (x : Int) : Nat := (x % 4294967296).toNat

/-- The fields of an `avif_config` fit their C type `int`. -/
def avif_config.wf (c : avif_config) : Prop :=
  (-2147483648 ≤ c.threads ∧ c.threads ≤ INT_MAX) ∧
  (-2147483648 ≤ c.speed ∧ c.speed ≤ INT_MAX) ∧
  (-2147483648 ≤ c.quality ∧ c.quality ≤ INT_MAX)

/-! ## The libaom types the pipeline touches -/

/-- libaom's `aom_img_fmt_t`, the two values that occur here. -/
inductive aom_img_fmt_t where
  | AOM_IMG_FMT_NONE
  | AOM_IMG_FMT_I420
  deriving DecidableEq

/-- A pointer into a buffer: the buffer and a byte offset from its start. -/
structure ptr where
  base : List uint8_t
  off : Int
  deriving DecidableEq

/-- The fields of libaom's `aom_image_t` that `convert_frame` writes; the
`memset` leaves every other field zero.  `stride_y`/`planes_y` stand for
`stride[AOM_PLANE_Y]`/`planes[AOM_PLANE_Y]`, and likewise for U and V. -/
structure aom_image_t where
  fmt : aom_img_fmt_t
  w : Nat
  d_w : Nat
  h : Nat
  d_h : Nat
  x_chroma_shift : Nat
  y_chroma_shift : Nat
  bps : Int
  stride_y : Int
  stride_u : Int
  stride_v : Int
  planes_y : ptr
  planes_u : ptr
  planes_v : ptr
  deriving DecidableEq

/-- The file-local struct `avif_format` of `av1.c`. -/
structure avif_format where
  fmt : aom_img_fmt_t
  dst_c_dec_h : Int
  dst_c_dec_v : Int
  bps : Int
  bytes_per_sample : Int
  deriving DecidableEq

/-! ## `convert_subsampling`, `convert_frame` -/

/-- `convert_subsampling`: `none` is the `assert(0)` of the `default:` branch. -/
def convert_subsampling (subsampling : avif_subsampling) : Option avif_format :=
  if subsampling = AVIF_SUBSAMPLING_I420 then
    some { fmt := .AOM_IMG_FMT_I420, dst_c_dec_h := 2, dst_c_dec_v := 2, bps := 12,
           bytes_per_sample := 1 }
  else none

/-- `convert_frame`.  Every `int` operation is wrapped; the `uint16_t`
dimensions are promoted to `int` first; C `/` truncates; the two plane
pointers are `data + pic_sz` and `(data + pic_sz) + c_sz`, pointer
arithmetic, so the offsets add without wrapping. -/
def convert_frame (frame : avif_frame) : Option aom_image_t :=
  match convert_subsampling frame.subsampling with
  | none => none
  | some fmt =>
    let pic_sz : Int := wrap32 (wrap32 ((frame.width : Int) * frame.height) * fmt.bytes_per_sample)
    let c_w0 : Int := Int.tdiv (wrap32 (wrap32 ((frame.width : Int) + fmt.dst_c_dec_h) - 1)) fmt.dst_c_dec_h
    let c_w : Int := wrap32 (c_w0 * fmt.bytes_per_sample)
    let c_h : Int := Int.tdiv (wrap32 (wrap32 ((frame.height : Int) + fmt.dst_c_dec_v) - 1)) fmt.dst_c_dec_v
    let c_sz : Int := wrap32 (c_w * c_h)
    some { fmt := fmt.fmt
           w := frame.width, d_w := frame.width
           h := frame.height, d_h := frame.height
           x_chroma_shift := to_unsigned (fmt.dst_c_dec_h >>> 1)
           y_chroma_shift := to_unsigned (fmt.dst_c_dec_v >>> 1)
           bps := fmt.bps
           stride_y := wrap32 ((frame.width : Int) * fmt.bytes_per_sample)
           stride_u := c_w
           stride_v := c_w
           planes_y := ⟨frame.data, 0⟩
           planes_u := ⟨frame.data, pic_sz⟩
           planes_v := ⟨frame.data, pic_sz + c_sz⟩ }

/-! ## The engine as an oracle, and the trace of a run -/

/-- libaom's `aom_codec_cx_pkt_kind`. -/
inductive aom_codec_cx_pkt_kind where
  | AOM_CODEC_CX_FRAME_PKT
  | AOM_CODEC_STATS_PKT
  | AOM_CODEC_FPMB_STATS_PKT
  | AOM_CODEC_PSNR_PKT
  | AOM_CODEC_CUSTOM_PKT
  deriving DecidableEq

/-- libaom's `aom_codec_cx_pkt_t`: the kind and the payload; `buf` is the
`sz` bytes at `data.frame.buf` (a frame packet) or at
`data.twopass_stats.buf` (a statistics packet), so `sz` is `buf.length`. -/
structure aom_codec_cx_pkt_t where
  kind : aom_codec_cx_pkt_kind
  buf : List uint8_t
  deriving DecidableEq

/-- libaom's `enum aom_rc_mode`. -/
inductive aom_rc_mode where
  | AOM_VBR
  | AOM_CBR
  | AOM_CQ
  | AOM_Q
  deriving DecidableEq

/-- libaom's `enum aom_enc_pass`. -/
inductive aom_enc_pass where
  | AOM_RC_ONE_PASS
  | AOM_RC_FIRST_PASS
  | AOM_RC_LAST_PASS
  deriving DecidableEq

/-- The fields of libaom's `aom_codec_enc_cfg_t` that `avif_encode_frame`
assigns; `others` stands for all the fields it leaves as the engine's default
configuration set them. -/
structure aom_codec_enc_cfg_t where
  g_limit : Nat
  g_w : Nat
  g_h : Nat
  g_timebase_num : Int
  g_timebase_den : Int
  rc_end_usage : aom_rc_mode
  g_threads : Nat
  g_pass : aom_enc_pass
  rc_twopass_stats_in : aom_fixed_buf_t
  others : Nat
  deriving DecidableEq

/-- The control identifiers `init_codec` uses. -/
inductive aome_enc_control_id where
  | AOME_SET_CPUUSED
  | AOME_SET_CQ_LEVEL
  | AV1E_SET_LOSSLESS
  | AV1E_SET_TILE_COLUMNS
  | AV1E_SET_TILE_ROWS
  | AV1E_SET_ROW_MT
  | AV1E_SET_FRAME_PARALLEL_DECODING
  deriving DecidableEq

/-- One library call of a run, with its arguments and what it returned.
`err = true` is a nonzero `aom_codec_err_t`.  `encode` with `img = none` is
the flush call (`frame == NULL`).  `free` is the libc call on `stats.buf`,
recorded with the bytes the released block holds. -/
inductive Event where
  | config_default (usage : Nat) (cfg : aom_codec_enc_cfg_t) (err : Bool)
  | enc_init (cfg : aom_codec_enc_cfg_t) (flags : Nat) (err : Bool)
  | control (ctrl : aome_enc_control_id) (val : Int) (err : Bool)
  | encode (img : Option aom_image_t) (pts : Int) (duration : Nat) (flags : Nat) (err : Bool)
  | get_cx_data (pkt : Option aom_codec_cx_pkt_t)
  | destroy (err : Bool)
  | free (buf : List uint8_t)
  deriving DecidableEq

/-- The engine: what each libaom call returns, given the calls made so far
(in the order they were made).  Any deterministic engine is such an oracle. -/
structure Engine where
  aom_codec_enc_config_default : List Event → Nat → aom_codec_enc_cfg_t × Bool
  aom_codec_enc_init : List Event → aom_codec_enc_cfg_t → Nat → Bool
  aom_codec_control : List Event → aome_enc_control_id → Int → Bool
  aom_codec_encode : List Event → Option aom_image_t → Int → Nat → Nat → Bool
  aom_codec_get_cx_data : List Event → Option aom_codec_cx_pkt_t
  aom_codec_destroy : List Event → Bool

/-! ## `get_frame_stats`, `encode_frame` -/

/-- The `while ((pkt = aom_codec_get_cx_data(ctx, &iter)) != NULL)` loop of
`get_frame_stats`: returns `got_pkts`, the statistics buffer and the trace. -/
def get_frame_stats_loop (E : Engine) :
    Nat → List Event → Int → aom_fixed_buf_t → Option (Int × aom_fixed_buf_t × List Event)
  | 0, _, _, _ => none
  | fuel + 1, tr, got_pkts, stats =>
    match E.aom_codec_get_cx_data tr with
    | none => some (got_pkts, stats, tr ++ [Event.get_cx_data none])
    | some pkt =>
      if pkt.kind = .AOM_CODEC_STATS_PKT then
        get_frame_stats_loop E fuel (tr ++ [Event.get_cx_data (some pkt)]) 1
          { buf := stats.buf ++ pkt.buf, sz := stats.sz + pkt.buf.length }
      else
        get_frame_stats_loop E fuel (tr ++ [Event.get_cx_data (some pkt)]) 1 stats

/-- `get_frame_stats`. -/
def get_frame_stats (E : Engine) (fuel : Nat) (tr : List Event) (frame : Option aom_image_t)
    (stats : aom_fixed_buf_t) : Option (Int × aom_fixed_buf_t × List Event) :=
  if E.aom_codec_encode tr frame 1 1 0 then
    some (AVIF_ERROR_FRAME_ENCODE, stats, tr ++ [Event.encode frame 1 1 0 true])
  else
    get_frame_stats_loop E fuel (tr ++ [Event.encode frame 1 1 0 false]) 0 stats

/-- The `while ((pkt = aom_codec_get_cx_data(ctx, &iter)) != NULL)` loop of
`encode_frame`: returns `got_pkts`, the output buffer and the trace. -/
def encode_frame_loop (E : Engine) :
    Nat → List Event → Int → avif_buffer → Option (Int × avif_buffer × List Event)
  | 0, _, _, _ => none
  | fuel + 1, tr, got_pkts, obu =>
    match E.aom_codec_get_cx_data tr with
    | none => some (got_pkts, obu, tr ++ [Event.get_cx_data none])
    | some pkt =>
      if pkt.kind = .AOM_CODEC_CX_FRAME_PKT then
        encode_frame_loop E fuel (tr ++ [Event.get_cx_data (some pkt)]) 1
          { buf := obu.buf ++ pkt.buf, sz := obu.sz + pkt.buf.length }
      else
        encode_frame_loop E fuel (tr ++ [Event.get_cx_data (some pkt)]) 1 obu

/-- `encode_frame`. -/
def encode_frame (E : Engine) (fuel : Nat) (tr : List Event) (frame : Option aom_image_t)
    (obu : avif_buffer) : Option (Int × avif_buffer × List Event) :=
  if E.aom_codec_encode tr frame 1 1 0 then
    some (AVIF_ERROR_FRAME_ENCODE, obu, tr ++ [Event.encode frame 1 1 0 true])
  else
    encode_frame_loop E fuel (tr ++ [Event.encode frame 1 1 0 false]) 0 obu

/-! ## `init_codec` -/

/-- The macro `SET_CODEC_CONTROL(ctrl, val)` followed by the rest `k` of the
function body: a failing control call returns `AVIF_ERROR_CODEC_INIT`. -/
def SET_CODEC_CONTROL (E : Engine) (ctrl : aome_enc_control_id) (val : Int) (tr : List Event)
    (k : List Event → avif_error × List Event) : avif_error × List Event :=
  if E.aom_codec_control tr ctrl val then
    (AVIF_ERROR_CODEC_INIT, tr ++ [Event.control ctrl val true])
  else
    k (tr ++ [Event.control ctrl val false])

/-- `init_codec`: returns the error code and the trace. -/
def init_codec (E : Engine) (tr : List Event) (aom_cfg : aom_codec_enc_cfg_t)
    (cfg : avif_config) : avif_error × List Event :=
  if E.aom_codec_enc_init tr aom_cfg 0 then
    (AVIF_ERROR_CODEC_INIT, tr ++ [Event.enc_init aom_cfg 0 true])
  else
    SET_CODEC_CONTROL E .AOME_SET_CPUUSED cfg.speed (tr ++ [Event.enc_init aom_cfg 0 false]) fun tr =>
    SET_CODEC_CONTROL E .AOME_SET_CQ_LEVEL cfg.quality tr fun tr =>
    let rest : List Event → avif_error × List Event := fun tr =>
      SET_CODEC_CONTROL E .AV1E_SET_TILE_COLUMNS 1 tr fun tr =>
      SET_CODEC_CONTROL E .AV1E_SET_TILE_ROWS 1 tr fun tr =>
      SET_CODEC_CONTROL E .AV1E_SET_ROW_MT 1 tr fun tr =>
      SET_CODEC_CONTROL E .AV1E_SET_FRAME_PARALLEL_DECODING 0 tr fun tr =>
      (AVIF_OK, tr)
    if cfg.quality = 0 then
      SET_CODEC_CONTROL E .AV1E_SET_LOSSLESS 1 tr rest
    else
      rest tr

/-! ## `do_pass1`, `do_pass2` -/

/-- The flush loop `while ((res = get_frame_stats(ctx, NULL, stats)) > 0)` of
`do_pass1`; `fuel` bounds the packet loop of every call, the second argument
bounds this loop. -/
def do_pass1_flush (E : Engine) (fuel : Nat) :
    Nat → List Event → aom_fixed_buf_t → Option (Int × aom_fixed_buf_t × List Event)
  | 0, _, _ => none
  | n + 1, tr, stats =>
    match get_frame_stats E fuel tr none stats with
    | none => none
    | some (res, stats, tr) =>
      if res > 0 then do_pass1_flush E fuel n tr stats else some (res, stats, tr)

/-- `do_pass1`. -/
def do_pass1 (E : Engine) (fuel : Nat) (tr : List Event) (frame : aom_image_t)
    (stats : aom_fixed_buf_t) : Option (avif_error × aom_fixed_buf_t × List Event) :=
  match get_frame_stats E fuel tr (some frame) stats with
  | none => none
  | some (res, stats, tr) =>
    if res < 0 then
      some (if res < 0 then res else AVIF_OK, stats, tr)
    else
      match do_pass1_flush E fuel fuel tr stats with
      | none => none
      | some (res, stats, tr) => some (if res < 0 then res else AVIF_OK, stats, tr)

/-- The flush loop `while ((res = encode_frame(ctx, NULL, obu)) > 0)` of
`do_pass2`. -/
def do_pass2_flush (E : Engine) (fuel : Nat) :
    Nat → List Event → avif_buffer → Option (Int × avif_buffer × List Event)
  | 0, _, _ => none
  | n + 1, tr, obu =>
    match encode_frame E fuel tr none obu with
    | none => none
    | some (res, obu, tr) =>
      if res > 0 then do_pass2_flush E fuel n tr obu else some (res, obu, tr)

/-- `do_pass2`. -/
def do_pass2 (E : Engine) (fuel : Nat) (tr : List Event) (frame : aom_image_t)
    (obu : avif_buffer) : Option (avif_error × avif_buffer × List Event) :=
  match encode_frame E fuel tr (some frame) obu with
  | none => none
  | some (res, obu, tr) =>
    if res < 0 then
      some (if res < 0 then res else AVIF_OK, obu, tr)
    else
      match do_pass2_flush E fuel fuel tr obu with
      | none => none
      | some (res, obu, tr) => some (if res < 0 then res else AVIF_OK, obu, tr)

/-! ## `avif_encode_frame` -/

/-- How a call of `avif_encode_frame` ends: a failed `assert`, or a `return`. -/
inductive Exit where
  | aborted
  | returned (res : avif_error)
  deriving DecidableEq

/-- The end of a call of `avif_encode_frame`: how it ended, the caller's
output buffer, and the library calls it made, in order. -/
structure Run where
  exit : Exit
  obu : avif_buffer
  trace : List Event
  deriving DecidableEq

/-- The `fail:` label of `avif_encode_frame`: `free(stats.buf); return res;`. -/
def fail_label (res : avif_error) (stats : aom_fixed_buf_t) (obu : avif_buffer)
    (tr : List Event) : Option Run :=
  some { exit := .returned res, obu := obu, trace := tr ++ [Event.free stats.buf] }

/-- `avif_encode_frame`, from an empty trace.  `none`: the fuel ran out. -/
def avif_encode_frame (E : Engine) (fuel : Nat) (cfg : avif_config) (frame : avif_frame)
    (obu : avif_buffer) : Option Run :=
  if ¬ (cfg.threads ≥ 1) then some ⟨.aborted, obu, []⟩ else
  if ¬ (cfg.speed ≥ AVIF_MIN_SPEED ∧ cfg.speed ≤ AVIF_MAX_SPEED) then some ⟨.aborted, obu, []⟩ else
  if ¬ (cfg.quality ≥ AVIF_MIN_QUALITY ∧ cfg.quality ≤ AVIF_MAX_QUALITY) then
    some ⟨.aborted, obu, []⟩ else
  if ¬ (frame.width ≠ 0 ∧ frame.height ≠ 0) then some ⟨.aborted, obu, []⟩ else
  match convert_frame frame with
  | none => some ⟨.aborted, obu, []⟩
  | some aom_frame =>
    let stats : aom_fixed_buf_t := ⟨[], 0⟩
    let dflt := E.aom_codec_enc_config_default [] 0
    let tr := [Event.config_default 0 dflt.1 dflt.2]
    if dflt.2 then fail_label AVIF_ERROR_CODEC_INIT stats obu tr else
    let aom_cfg : aom_codec_enc_cfg_t :=
      { dflt.1 with
        g_limit := 1, g_w := frame.width, g_h := frame.height,
        g_timebase_num := 1, g_timebase_den := 24,
        rc_end_usage := .AOM_Q, g_threads := to_unsigned cfg.threads }
    -- Pass 1.
    let aom_cfg : aom_codec_enc_cfg_t := { aom_cfg with g_pass := .AOM_RC_FIRST_PASS }
    match init_codec E tr aom_cfg cfg with
    | (res, tr) =>
    if res ≠ 0 then fail_label res stats obu tr else
    match do_pass1 E fuel tr aom_frame stats with
    | none => none
    | some (res, stats, tr) =>
    if res ≠ 0 then fail_label res stats obu tr else
    if E.aom_codec_destroy tr then
      fail_label AVIF_ERROR_CODEC_DESTROY stats obu (tr ++ [Event.destroy true]) else
    let tr := tr ++ [Event.destroy false]
    -- Pass 2.
    let aom_cfg : aom_codec_enc_cfg_t :=
      { aom_cfg with g_pass := .AOM_RC_LAST_PASS, rc_twopass_stats_in := stats }
    match init_codec E tr aom_cfg cfg with
    | (res, tr) =>
    if res ≠ 0 then fail_label res stats obu tr else
    match do_pass2 E fuel tr aom_frame obu with
    | none => none
    | some (res, obu, tr) =>
    if res ≠ 0 then fail_label res stats obu tr else
    if E.aom_codec_destroy tr then
      fail_label AVIF_ERROR_CODEC_DESTROY stats obu (tr ++ [Event.destroy true]) else
    fail_label res stats obu (tr ++ [Event.destroy false])

/-! ## Reading a trace -/

/-- The call returned an error. -/
def Event.failed : Event → Bool
  | .config_default _ _ err => err
  | .enc_init _ _ err => err
  | .control _ _ err => err
  | .encode _ _ _ _ err => err
  | .destroy err => err
  | .get_cx_data _ => false
  | .free _ => false

/-- The error code the specification assigns to a failing call:
CODEC_INIT_FAILED for default-config generation, instance init and control
setting, FRAME_ENCODE_FAILED for a feed, CODEC_DESTROY_FAILED for a destroy. -/
def Event.code : Event → avif_error
  | .config_default _ _ _ => AVIF_ERROR_CODEC_INIT
  | .enc_init _ _ _ => AVIF_ERROR_CODEC_INIT
  | .control _ _ _ => AVIF_ERROR_CODEC_INIT
  | .encode _ _ _ _ _ => AVIF_ERROR_FRAME_ENCODE
  | .destroy _ => AVIF_ERROR_CODEC_DESTROY
  | .get_cx_data _ => AVIF_OK
  | .free _ => AVIF_OK

/-- The payload of the packet an event delivered, if it delivered one of kind `k`. -/
def Event.payload (k : aom_codec_cx_pkt_kind) : Event → Option (List uint8_t)
  | .get_cx_data (some pkt) => if pkt.kind = k then some pkt.buf else none
  | _ => none

/-- The payloads of the packets of kind `k` the engine delivered, in the
order of delivery. -/
def payloads (k : aom_codec_cx_pkt_kind) (evs : List Event) : List (List uint8_t) :=
  evs.filterMap (Event.payload k)

/-- No call of the trace returned an error. -/
def clean (evs : List Event) : Prop := ∀ e ∈ evs, e.failed = false

/-- The events of a packet loop that delivered the packets `pk`. -/
def pkt_events (pk : List aom_codec_cx_pkt_t) : List Event :=
  pk.map fun p => Event.get_cx_data (some p)

/-- The events of one successful feed whose drain delivered the packets `pk`
and then `NULL`. -/
def feed_events (img : Option aom_image_t) (pk : List aom_codec_cx_pkt_t) : List Event :=
  Event.encode img 1 1 0 false :: (pkt_events pk ++ [Event.get_cx_data none])

/-- The events of successive successful flush feeds, one list of delivered
packets per flush. -/
def flush_events (fl : List (List aom_codec_cx_pkt_t)) : List Event :=
  (fl.map (feed_events none)).flatten

/-- The engine hands out no packet once `N` calls have been made: a bound on
how long it keeps the two loops of a pass running. -/
def Engine.quiet_after (E : Engine) (N : Nat) : Prop :=
  ∀ h : List Event, N ≤ h.length → E.aom_codec_get_cx_data h = none

/-! ## The common form of the two passes

`get_frame_stats`/`do_pass1` and `encode_frame`/`do_pass2` differ in the packet
kind they keep.  The definitions below have the kind as a parameter; they are
shown equal to the four source functions and carry the proofs for both. -/

/-- The packet loop, keeping packets of kind `k`. -/
def drain (E : Engine) (k : aom_codec_cx_pkt_kind) :
    Nat → List Event → Int → avif_buffer → Option (Int × avif_buffer × List Event)
  | 0, _, _, _ => none
  | fuel + 1, tr, got_pkts, b =>
    match E.aom_codec_get_cx_data tr with
    | none => some (got_pkts, b, tr ++ [Event.get_cx_data none])
    | some pkt =>
      if pkt.kind = k then
        drain E k fuel (tr ++ [Event.get_cx_data (some pkt)]) 1
          { buf := b.buf ++ pkt.buf, sz := b.sz + pkt.buf.length }
      else
        drain E k fuel (tr ++ [Event.get_cx_data (some pkt)]) 1 b

/-- One feed and its packet loop, keeping packets of kind `k`. -/
def feed (E : Engine) (k : aom_codec_cx_pkt_kind) (fuel : Nat) (tr : List Event)
    (frame : Option aom_image_t) (b : avif_buffer) : Option (Int × avif_buffer × List Event) :=
  if E.aom_codec_encode tr frame 1 1 0 then
    some (AVIF_ERROR_FRAME_ENCODE, b, tr ++ [Event.encode frame 1 1 0 true])
  else
    drain E k fuel (tr ++ [Event.encode frame 1 1 0 false]) 0 b

/-- The flush loop, keeping packets of kind `k`. -/
def flush (E : Engine) (k : aom_codec_cx_pkt_kind) (fuel : Nat) :
    Nat → List Event → avif_buffer → Option (Int × avif_buffer × List Event)
  | 0, _, _ => none
  | n + 1, tr, b =>
    match feed E k fuel tr none b with
    | none => none
    | some (res, b, tr) =>
      if res > 0 then flush E k fuel n tr b else some (res, b, tr)

/-- A whole pass, keeping packets of kind `k`. -/
def pass (E : Engine) (k : aom_codec_cx_pkt_kind) (fuel : Nat) (tr : List Event)
    (frame : aom_image_t) (b : avif_buffer) : Option (avif_error × avif_buffer × List Event) :=
  match feed E k fuel tr (some frame) b with
  | none => none
  | some (res, b, tr) =>
    if res < 0 then
      some (if res < 0 then res else AVIF_OK, b, tr)
    else
      match flush E k fuel fuel tr b with
      | none => none
      | some (res, b, tr) => some (if res < 0 then res else AVIF_OK, b, tr)

/-! ## Reading a trace: what the claims speak of -/

/-- The error code of the first failing call of a trace, `AVIF_OK` when no
call failed. -/
def verdict (evs : List Event) : avif_error :=
  match evs.find? Event.failed with
  | none => AVIF_OK
  | some e => e.code

/-- The event is a control call. -/
def Event.is_control : Event → Bool
  | .control _ _ _ => true
  | _ => false

/-- The event is a request of the lossless override, whatever its value and
outcome. -/
def Event.is_lossless : Event → Bool
  | .control .AV1E_SET_LOSSLESS _ _ => true
  | _ => false

/-- The events of a list of successful control calls. -/
def ctl_events (l : List (aome_enc_control_id × Int)) : List Event :=
  l.map fun p => Event.control p.1 p.2 false

/-- The control sequence the specification lists for `initCodec`. -/
def expected_controls (cfg : avif_config) : List (aome_enc_control_id × Int) :=
  [(.AOME_SET_CPUUSED, cfg.speed), (.AOME_SET_CQ_LEVEL, cfg.quality)] ++
  (if cfg.quality = 0 then [(.AV1E_SET_LOSSLESS, 1)] else []) ++
  [(.AV1E_SET_TILE_COLUMNS, 1), (.AV1E_SET_TILE_ROWS, 1), (.AV1E_SET_ROW_MT, 1),
   (.AV1E_SET_FRAME_PARALLEL_DECODING, 0)]

/-- What a chain of `SET_CODEC_CONTROL` steps that is to issue the controls
`exp` does to the trace `base`: it appends control events only, returns the
verdict of what it appended, and appended exactly `exp` if none failed. -/
def ctl_post (exp : List (aome_enc_control_id × Int)) (base : List Event)
    (r : avif_error × List Event) : Prop :=
  ∃ done : List Event, r.2 = base ++ done ∧ r.1 = verdict done ∧
    (∀ e ∈ done, e.is_control = true) ∧ (clean done → done = ctl_events exp)

/-- How a pass that kept packets of kind `k` ended, from the trace `tr` and
the buffer `b`, with result `res`, buffer `b'` and trace `tr'`.  Either the
feed of the frame failed: that feed is the last call, the result is
FRAME_ENCODE_FAILED, the buffer is untouched.  Or the drain after the frame
delivered the packets `pk0`, a number of flush feeds followed whose drains
delivered the non-empty packet lists `fl` (of whatever kinds), the buffer is
`b` followed by the kept payloads of all of these, and the pass ended in one of
two ways: a failing flush feed, the last call, with result
FRAME_ENCODE_FAILED; or a successful flush feed whose drain delivered no
packet, with result OK. -/
def pass_outcome (k : aom_codec_cx_pkt_kind) (tr : List Event) (frame : aom_image_t)
    (b : avif_buffer) (res : avif_error) (b' : avif_buffer) (tr' : List Event) : Prop :=
  (res = AVIF_ERROR_FRAME_ENCODE ∧ b' = b ∧
    tr' = tr ++ [Event.encode (some frame) 1 1 0 true]) ∨
  ∃ (pk0 : List aom_codec_cx_pkt_t) (fl : List (List aom_codec_cx_pkt_t)),
    (∀ l ∈ fl, l ≠ []) ∧
    b'.buf = b.buf ++ (payloads k (feed_events (some frame) pk0 ++ flush_events fl)).flatten ∧
    b'.sz = b.sz +
      ((payloads k (feed_events (some frame) pk0 ++ flush_events fl)).map List.length).sum ∧
    ((res = AVIF_ERROR_FRAME_ENCODE ∧
        tr' = tr ++ (feed_events (some frame) pk0 ++ flush_events fl ++
          [Event.encode none 1 1 0 true])) ∨
     (res = AVIF_OK ∧
        tr' = tr ++ (feed_events (some frame) pk0 ++ flush_events fl ++
          feed_events none [])))

/-- The event is a feed or a packet request: a call of a pass. -/
def Event.is_pass_call : Event → Bool
  | .encode _ _ _ _ _ => true
  | .get_cx_data _ => true
  | _ => false

/-- The event is an instance initialisation. -/
def Event.is_enc_init : Event → Bool
  | .enc_init _ _ _ => true
  | _ => false

/-- The event is a destroy call. -/
def Event.is_destroy : Event → Bool
  | .destroy _ => true
  | _ => false

/-- The event is the release of the statistics buffer. -/
def Event.is_free : Event → Bool
  | .free _ => true
  | _ => false

/-- The calls of pass 1: a run destroys the pass-1 instance before it does
anything for pass 2, so these are the calls before the first destroy call. -/
def pass1_events (tr : List Event) : List Event :=
  tr.takeWhile fun e => !e.is_destroy

/-- The configuration `avif_encode_frame` initialises pass 1 with, from the
engine's default configuration `d`. -/
def first_pass_cfg (d : aom_codec_enc_cfg_t) (cfg : avif_config) (frame : avif_frame) :
    aom_codec_enc_cfg_t :=
  { d with
    g_limit := 1, g_w := frame.width, g_h := frame.height,
    g_timebase_num := 1, g_timebase_den := 24,
    rc_end_usage := .AOM_Q, g_threads := to_unsigned cfg.threads,
    g_pass := .AOM_RC_FIRST_PASS }

/-- The configuration `avif_encode_frame` initialises pass 2 with. -/
def last_pass_cfg (d : aom_codec_enc_cfg_t) (cfg : avif_config) (frame : avif_frame)
    (stats : aom_fixed_buf_t) : aom_codec_enc_cfg_t :=
  { first_pass_cfg d cfg frame with
    g_pass := .AOM_RC_LAST_PASS, rc_twopass_stats_in := stats }

/-- What the calls `n` of one `init_codec` with configuration `c` and result
`r` look like. -/
def init_facts (c : aom_codec_enc_cfg_t) (r : avif_error) (n : List Event) : Prop :=
  r = verdict n ∧
  ∃ (err : Bool) (done : List Event),
    n = Event.enc_init c 0 err :: done ∧ ∀ e ∈ done, e.is_control = true

/-- What the calls `n` of one pass look like, with result `r`, the buffer
`b` before and `b'` after, the pass keeping packets of kind `k`. -/
def pass_facts (k : aom_codec_cx_pkt_kind) (b : avif_buffer) (r : avif_error)
    (b' : avif_buffer) (n : List Event) : Prop :=
  r = verdict n ∧
  (∀ e ∈ n, e.is_pass_call = true) ∧
  (∃ f err rest, n = Event.encode f 1 1 0 err :: rest) ∧
  b'.buf = b.buf ++ (payloads k n).flatten ∧
  b'.sz = b.sz + ((payloads k n).map List.length).sum

/-- The eight ways a call of `avif_encode_frame` that passed its assertions
returns, each with the calls it made. -/
inductive run_case (E : Engine) (cfg : avif_config) (frame : avif_frame) (obu : avif_buffer) :
    Run → Prop where
  | default_failed (d : aom_codec_enc_cfg_t)
      (hd : E.aom_codec_enc_config_default [] 0 = (d, true)) :
      run_case E cfg frame obu
        ⟨.returned AVIF_ERROR_CODEC_INIT, obu,
          Event.config_default 0 d true :: [Event.free []]⟩
  | init1_failed (d : aom_codec_enc_cfg_t) (r1 : avif_error) (n1 : List Event)
      (hd : E.aom_codec_enc_config_default [] 0 = (d, false))
      (h1 : init_facts (first_pass_cfg d cfg frame) r1 n1) (hr : r1 ≠ 0) :
      run_case E cfg frame obu
        ⟨.returned r1, obu, Event.config_default 0 d false :: (n1 ++ [Event.free []])⟩
  | pass1_failed (d : aom_codec_enc_cfg_t) (n1 : List Event) (r2 : avif_error)
      (st : aom_fixed_buf_t) (p1 : List Event)
      (hd : E.aom_codec_enc_config_default [] 0 = (d, false))
      (h1 : init_facts (first_pass_cfg d cfg frame) 0 n1)
      (h2 : pass_facts .AOM_CODEC_STATS_PKT ⟨[], 0⟩ r2 st p1) (hr : r2 ≠ 0) :
      run_case E cfg frame obu
        ⟨.returned r2, obu,
          Event.config_default 0 d false :: (n1 ++ (p1 ++ [Event.free st.buf]))⟩
  | destroy1_failed (d : aom_codec_enc_cfg_t) (n1 : List Event)
      (st : aom_fixed_buf_t) (p1 : List Event)
      (hd : E.aom_codec_enc_config_default [] 0 = (d, false))
      (h1 : init_facts (first_pass_cfg d cfg frame) 0 n1)
      (h2 : pass_facts .AOM_CODEC_STATS_PKT ⟨[], 0⟩ 0 st p1) :
      run_case E cfg frame obu
        ⟨.returned AVIF_ERROR_CODEC_DESTROY, obu,
          Event.config_default 0 d false ::
            (n1 ++ (p1 ++ (Event.destroy true :: [Event.free st.buf])))⟩
  | init2_failed (d : aom_codec_enc_cfg_t) (n1 : List Event)
      (st : aom_fixed_buf_t) (p1 : List Event) (r3 : avif_error) (n2 : List Event)
      (hd : E.aom_codec_enc_config_default [] 0 = (d, false))
      (h1 : init_facts (first_pass_cfg d cfg frame) 0 n1)
      (h2 : pass_facts .AOM_CODEC_STATS_PKT ⟨[], 0⟩ 0 st p1)
      (h3 : init_facts (last_pass_cfg d cfg frame st) r3 n2) (hr : r3 ≠ 0) :
      run_case E cfg frame obu
        ⟨.returned r3, obu,
          Event.config_default 0 d false ::
            (n1 ++ (p1 ++ (Event.destroy false :: (n2 ++ [Event.free st.buf]))))⟩
  | pass2_failed (d : aom_codec_enc_cfg_t) (n1 : List Event)
      (st : aom_fixed_buf_t) (p1 : List Event) (n2 : List Event) (r4 : avif_error)
      (obu' : avif_buffer) (p2 : List Event)
      (hd : E.aom_codec_enc_config_default [] 0 = (d, false))
      (h1 : init_facts (first_pass_cfg d cfg frame) 0 n1)
      (h2 : pass_facts .AOM_CODEC_STATS_PKT ⟨[], 0⟩ 0 st p1)
      (h3 : init_facts (last_pass_cfg d cfg frame st) 0 n2)
      (h4 : pass_facts .AOM_CODEC_CX_FRAME_PKT obu r4 obu' p2) (hr : r4 ≠ 0) :
      run_case E cfg frame obu
        ⟨.returned r4, obu',
          Event.config_default 0 d false ::
            (n1 ++ (p1 ++ (Event.destroy false :: (n2 ++ (p2 ++ [Event.free st.buf])))))⟩
  | destroy2_failed (d : aom_codec_enc_cfg_t) (n1 : List Event)
      (st : aom_fixed_buf_t) (p1 : List Event) (n2 : List Event)
      (obu' : avif_buffer) (p2 : List Event)
      (hd : E.aom_codec_enc_config_default [] 0 = (d, false))
      (h1 : init_facts (first_pass_cfg d cfg frame) 0 n1)
      (h2 : pass_facts .AOM_CODEC_STATS_PKT ⟨[], 0⟩ 0 st p1)
      (h3 : init_facts (last_pass_cfg d cfg frame st) 0 n2)
      (h4 : pass_facts .AOM_CODEC_CX_FRAME_PKT obu 0 obu' p2) :
      run_case E cfg frame obu
        ⟨.returned AVIF_ERROR_CODEC_DESTROY, obu',
          Event.config_default 0 d false ::
            (n1 ++ (p1 ++ (Event.destroy false ::
              (n2 ++ (p2 ++ (Event.destroy true :: [Event.free st.buf]))))))⟩
  | success (d : aom_codec_enc_cfg_t) (n1 : List Event)
      (st : aom_fixed_buf_t) (p1 : List Event) (n2 : List Event)
      (obu' : avif_buffer) (p2 : List Event)
      (hd : E.aom_codec_enc_config_default [] 0 = (d, false))
      (h1 : init_facts (first_pass_cfg d cfg frame) 0 n1)
      (h2 : pass_facts .AOM_CODEC_STATS_PKT ⟨[], 0⟩ 0 st p1)
      (h3 : init_facts (last_pass_cfg d cfg frame st) 0 n2)
      (h4 : pass_facts .AOM_CODEC_CX_FRAME_PKT obu 0 obu' p2) :
      run_case E cfg frame obu
        ⟨.returned 0, obu',
          Event.config_default 0 d false ::
            (n1 ++ (p1 ++ (Event.destroy false ::
              (n2 ++ (p2 ++ (Event.destroy false :: [Event.free st.buf]))))))⟩

/-- The preconditions of `avif_encode_frame`: at least one thread, speed and
quality in their ranges, non-zero dimensions, 4:2:0 subsampling. -/
def valid_input (cfg : avif_config) (frame : avif_frame) : Prop :=
  1 ≤ cfg.threads ∧ (0 ≤ cfg.speed ∧ cfg.speed ≤ 8) ∧ (0 ≤ cfg.quality ∧ cfg.quality ≤ 63) ∧
  0 < frame.width ∧ 0 < frame.height ∧ frame.subsampling = AVIF_SUBSAMPLING_I420

instance (evs : List Event) : Decidable (clean evs) := by
  unfold clean
  infer_instance

instance (cfg : avif_config) (frame : avif_frame) : Decidable (valid_input cfg frame) := by
  unfold valid_input
  infer_instance

instance (c : avif_config) : Decidable c.wf := by
  unfold avif_config.wf
  infer_instance

/-! ## Sample inputs and engines -/

/-- A sample configuration: one thread, speed 6, lossless. -/
def demo_cfg : avif_config := { threads := 1, speed := 6, quality := 0 }

/-- A sample frame header: 17 x 15, 4:2:0 (the pixel bytes play no role). -/
def demo_frame : avif_frame :=
  { width := 17, height := 15, subsampling := AVIF_SUBSAMPLING_I420, data := [] }

/-- The image descriptor `convert_frame` builds for `demo_frame`. -/
def demo_image : aom_image_t :=
  { fmt := .AOM_IMG_FMT_I420, w := 17, d_w := 17, h := 15, d_h := 15,
    x_chroma_shift := 1, y_chroma_shift := 1, bps := 12,
    stride_y := 17, stride_u := 9, stride_v := 9,
    planes_y := ⟨[], 0⟩, planes_u := ⟨[], 255⟩, planes_v := ⟨[], 327⟩ }

/-- A sample default configuration of the engine. -/
def demo_default : aom_codec_enc_cfg_t :=
  { g_limit := 0, g_w := 320, g_h := 240, g_timebase_num := 1, g_timebase_den := 30,
    rc_end_usage := .AOM_VBR, g_threads := 0, g_pass := .AOM_RC_ONE_PASS,
    rc_twopass_stats_in := ⟨[], 0⟩, others := 0 }

/-- A sample engine for one pass run from the empty trace: no call fails; the
drain after the frame delivers the frame packet `[5, 6]`, the first flush a
statistics packet `[1]` and the frame packet `[7]`, the second flush nothing. -/
def pass_engine : Engine where
  aom_codec_enc_config_default := fun _ _ => (demo_default, false)
  aom_codec_enc_init := fun _ _ _ => false
  aom_codec_control := fun _ _ _ => false
  aom_codec_encode := fun _ _ _ _ _ => false
  aom_codec_get_cx_data := fun h =>
    if h.length = 1 then some ⟨.AOM_CODEC_CX_FRAME_PKT, [5, 6]⟩
    else if h.length = 4 then some ⟨.AOM_CODEC_STATS_PKT, [1]⟩
    else if h.length = 5 then some ⟨.AOM_CODEC_CX_FRAME_PKT, [7]⟩
    else none
  aom_codec_destroy := fun _ => false

/-- The same engine, except that its third feed (the second flush) fails. -/
def flush_fail_engine : Engine :=
  { pass_engine with aom_codec_encode := fun h _ _ _ _ => decide (h.length = 7) }

/-- A sample engine for a whole run with `demo_cfg`: no call fails; pass 1
delivers the statistics packets `[1, 2]` (after the frame) and `[3]` (first
flush, after a frame packet), pass 2 the frame packets `[5, 6]` and `[7]`. -/
def demo_engine : Engine where
  aom_codec_enc_config_default := fun _ _ => (demo_default, false)
  aom_codec_enc_init := fun _ _ _ => false
  aom_codec_control := fun _ _ _ => false
  aom_codec_encode := fun _ _ _ _ _ => false
  aom_codec_get_cx_data := fun h =>
    if h.length = 10 then some ⟨.AOM_CODEC_STATS_PKT, [1, 2]⟩
    else if h.length = 13 then some ⟨.AOM_CODEC_CX_FRAME_PKT, [9]⟩
    else if h.length = 14 then some ⟨.AOM_CODEC_STATS_PKT, [3]⟩
    else if h.length = 28 then some ⟨.AOM_CODEC_CX_FRAME_PKT, [5, 6]⟩
    else if h.length = 31 then some ⟨.AOM_CODEC_STATS_PKT, [4]⟩
    else if h.length = 32 then some ⟨.AOM_CODEC_CX_FRAME_PKT, [7]⟩
    else none
  aom_codec_destroy := fun _ => false

/-- An engine whose instance initialisation succeeds and whose control calls
all fail. -/
def control_fail_engine : Engine :=
  { demo_engine with aom_codec_control := fun _ _ _ => true }

/-- An engine whose instance initialisation fails. -/
def init_fail_engine : Engine :=
  { demo_engine with aom_codec_enc_init := fun _ _ _ => true }

/-- The calls of `do_pass2` from the empty trace with `pass_engine`. -/
def pass_engine_trace : List Event :=
  [Event.encode (some demo_image) 1 1 0 false,
   Event.get_cx_data (some ⟨.AOM_CODEC_CX_FRAME_PKT, [5, 6]⟩),
   Event.get_cx_data none,
   Event.encode none 1 1 0 false,
   Event.get_cx_data (some ⟨.AOM_CODEC_STATS_PKT, [1]⟩),
   Event.get_cx_data (some ⟨.AOM_CODEC_CX_FRAME_PKT, [7]⟩),
   Event.get_cx_data none,
   Event.encode none 1 1 0 false,
   Event.get_cx_data none]

/-- The calls of `do_pass2` from the empty trace with `flush_fail_engine`. -/
def flush_fail_trace : List Event :=
  [Event.encode (some demo_image) 1 1 0 false,
   Event.get_cx_data (some ⟨.AOM_CODEC_CX_FRAME_PKT, [5, 6]⟩),
   Event.get_cx_data none,
   Event.encode none 1 1 0 false,
   Event.get_cx_data (some ⟨.AOM_CODEC_STATS_PKT, [1]⟩),
   Event.get_cx_data (some ⟨.AOM_CODEC_CX_FRAME_PKT, [7]⟩),
   Event.get_cx_data none,
   Event.encode none 1 1 0 true]

/-- The first-pass configuration of the sample run. -/
def demo_first_cfg : aom_codec_enc_cfg_t :=
  { g_limit := 1, g_w := 17, g_h := 15, g_timebase_num := 1, g_timebase_den := 24,
    rc_end_usage := .AOM_Q, g_threads := 1, g_pass := .AOM_RC_FIRST_PASS,
    rc_twopass_stats_in := ⟨[], 0⟩, others := 0 }

/-- The last-pass configuration of the sample run. -/
def demo_last_cfg : aom_codec_enc_cfg_t :=
  { g_limit := 1, g_w := 17, g_h := 15, g_timebase_num := 1, g_timebase_den := 24,
    rc_end_usage := .AOM_Q, g_threads := 1, g_pass := .AOM_RC_LAST_PASS,
    rc_twopass_stats_in := ⟨[1, 2, 3], 3⟩, others := 0 }

/-- The calls of a successful `init_codec` with `demo_cfg`. -/
def demo_init_events (c : aom_codec_enc_cfg_t) : List Event :=
  [Event.enc_init c 0 false,
   Event.control .AOME_SET_CPUUSED 6 false,
   Event.control .AOME_SET_CQ_LEVEL 0 false,
   Event.control .AV1E_SET_LOSSLESS 1 false,
   Event.control .AV1E_SET_TILE_COLUMNS 1 false,
   Event.control .AV1E_SET_TILE_ROWS 1 false,
   Event.control .AV1E_SET_ROW_MT 1 false,
   Event.control .AV1E_SET_FRAME_PARALLEL_DECODING 0 false]

/-- The calls of `avif_encode_frame` with `demo_engine`, `demo_cfg`,
`demo_frame`. -/
def demo_trace : List Event :=
  [Event.config_default 0 demo_default false] ++ demo_init_events demo_first_cfg ++
  [Event.encode (some demo_image) 1 1 0 false,
   Event.get_cx_data (some ⟨.AOM_CODEC_STATS_PKT, [1, 2]⟩),
   Event.get_cx_data none,
   Event.encode none 1 1 0 false,
   Event.get_cx_data (some ⟨.AOM_CODEC_CX_FRAME_PKT, [9]⟩),
   Event.get_cx_data (some ⟨.AOM_CODEC_STATS_PKT, [3]⟩),
   Event.get_cx_data none,
   Event.encode none 1 1 0 false,
   Event.get_cx_data none,
   Event.destroy false] ++ demo_init_events demo_last_cfg ++
  [Event.encode (some demo_image) 1 1 0 false,
   Event.get_cx_data (some ⟨.AOM_CODEC_CX_FRAME_PKT, [5, 6]⟩),
   Event.get_cx_data none,
   Event.encode none 1 1 0 false,
   Event.get_cx_data (some ⟨.AOM_CODEC_STATS_PKT, [4]⟩),
   Event.get_cx_data (some ⟨.AOM_CODEC_CX_FRAME_PKT, [7]⟩),
   Event.get_cx_data none,
   Event.encode none 1 1 0 false,
   Event.get_cx_data none,
   Event.destroy false,
   Event.free [1, 2, 3]]

/-- The calls of `avif_encode_frame` with `control_fail_engine`. -/
def control_fail_trace : List Event :=
  [Event.config_default 0 demo_default false,
   Event.enc_init demo_first_cfg 0 false,
   Event.control .AOME_SET_CPUUSED 6 true,
   Event.free []]

/-- The calls of `avif_encode_frame` with `init_fail_engine`. -/
def init_fail_trace : List Event :=
  [Event.config_default 0 demo_default false,
   Event.enc_init demo_first_cfg 0 true,
   Event.free []]

/-! ## The trace records the engine's answers -/

/-- None of the engine's calls ever returns an error. -/
def Engine.never_fails (E : Engine) : Prop :=
  (∀ h usage, (E.aom_codec_enc_config_default h usage).2 = false) ∧
  (∀ h cfg flags, E.aom_codec_enc_init h cfg flags = false) ∧
  (∀ h ctrl val, E.aom_codec_control h ctrl val = false) ∧
  (∀ h img pts duration flags, E.aom_codec_encode h img pts duration flags = false) ∧
  (∀ h, E.aom_codec_destroy h = false)

/-- The event `e` is what the engine answers to that call after the calls `h`. -/
def Event.answers (E : Engine) (h : List Event) : Event → Prop
  | .config_default usage cfg err => E.aom_codec_enc_config_default h usage = (cfg, err)
  | .enc_init cfg flags err => E.aom_codec_enc_init h cfg flags = err
  | .control ctrl val err => E.aom_codec_control h ctrl val = err
  | .encode img pts duration flags err => E.aom_codec_encode h img pts duration flags = err
  | .get_cx_data pkt => E.aom_codec_get_cx_data h = pkt
  | .destroy err => E.aom_codec_destroy h = err
  | .free _ => True

/-- Each of the calls `new`, made one after the other after the calls `h`,
records what the engine answered at that point. -/
def faithful (E : Engine) : List Event → List Event → Prop
  | _, [] => True
  | h, e :: es => e.answers E h ∧ faithful E (h ++ [e]) es

/-! # Theorems -/

/-! ## The source functions are instances of the common form -/

theorem get_frame_stats_loop_eq (E : Engine) (fuel : Nat) (tr : List Event) (g : Int)
    (b : avif_buffer) :
    get_frame_stats_loop E fuel tr g b = drain E .AOM_CODEC_STATS_PKT fuel tr g b := by
  induction fuel generalizing tr g b with
  | zero => rfl
  | succ n ih => simp only [get_frame_stats_loop, drain, ih]

theorem encode_frame_loop_eq (E : Engine) (fuel : Nat) (tr : List Event) (g : Int)
    (b : avif_buffer) :
    encode_frame_loop E fuel tr g b = drain E .AOM_CODEC_CX_FRAME_PKT fuel tr g b := by
  induction fuel generalizing tr g b with
  | zero => rfl
  | succ n ih => simp only [encode_frame_loop, drain, ih]

theorem get_frame_stats_eq (E : Engine) (fuel : Nat) (tr : List Event)
    (frame : Option aom_image_t) (b : avif_buffer) :
    get_frame_stats E fuel tr frame b = feed E .AOM_CODEC_STATS_PKT fuel tr frame b := by
  simp only [get_frame_stats, feed, get_frame_stats_loop_eq]

theorem encode_frame_eq (E : Engine) (fuel : Nat) (tr : List Event)
    (frame : Option aom_image_t) (b : avif_buffer) :
    encode_frame E fuel tr frame b = feed E .AOM_CODEC_CX_FRAME_PKT fuel tr frame b := by
  simp only [encode_frame, feed, encode_frame_loop_eq]

theorem do_pass1_flush_eq (E : Engine) (fuel n : Nat) (tr : List Event) (b : avif_buffer) :
    do_pass1_flush E fuel n tr b = flush E .AOM_CODEC_STATS_PKT fuel n tr b := by
  induction n generalizing tr b with
  | zero => rfl
  | succ n ih => simp only [do_pass1_flush, flush, get_frame_stats_eq, ih]; rfl

theorem do_pass2_flush_eq (E : Engine) (fuel n : Nat) (tr : List Event) (b : avif_buffer) :
    do_pass2_flush E fuel n tr b = flush E .AOM_CODEC_CX_FRAME_PKT fuel n tr b := by
  induction n generalizing tr b with
  | zero => rfl
  | succ n ih => simp only [do_pass2_flush, flush, encode_frame_eq, ih]

theorem do_pass1_eq (E : Engine) (fuel : Nat) (tr : List Event) (frame : aom_image_t)
    (b : avif_buffer) :
    do_pass1 E fuel tr frame b = pass E .AOM_CODEC_STATS_PKT fuel tr frame b := by
  simp only [do_pass1, pass, get_frame_stats_eq, do_pass1_flush_eq]; rfl

theorem do_pass2_eq (E : Engine) (fuel : Nat) (tr : List Event) (frame : aom_image_t)
    (b : avif_buffer) :
    do_pass2 E fuel tr frame b = pass E .AOM_CODEC_CX_FRAME_PKT fuel tr frame b := by
  simp only [do_pass2, pass, encode_frame_eq, do_pass2_flush_eq]

/-! ## Reading a trace: basic facts -/

theorem payloads_append (k : aom_codec_cx_pkt_kind) (a b : List Event) :
    payloads k (a ++ b) = payloads k a ++ payloads k b := by
  simp [payloads]

theorem payloads_pkt_cons (k : aom_codec_cx_pkt_kind) (p : aom_codec_cx_pkt_t)
    (pk : List aom_codec_cx_pkt_t) :
    payloads k (pkt_events (p :: pk)) =
      (if p.kind = k then [p.buf] else []) ++ payloads k (pkt_events pk) := by
  by_cases h : p.kind = k <;> simp [payloads, pkt_events, Event.payload, h]

theorem payloads_feed_events (k : aom_codec_cx_pkt_kind) (img : Option aom_image_t)
    (pk : List aom_codec_cx_pkt_t) :
    payloads k (feed_events img pk) = payloads k (pkt_events pk) := by
  simp [payloads, feed_events, Event.payload]

theorem flush_events_cons (l : List aom_codec_cx_pkt_t) (fl : List (List aom_codec_cx_pkt_t)) :
    flush_events (l :: fl) = feed_events none l ++ flush_events fl := by
  simp [flush_events]

theorem clean_append (a b : List Event) : clean (a ++ b) ↔ clean a ∧ clean b := by
  simp only [clean, List.mem_append]
  constructor
  · intro h
    exact ⟨fun e he => h e (Or.inl he), fun e he => h e (Or.inr he)⟩
  · rintro ⟨h1, h2⟩ e (he | he)
    · exact h1 e he
    · exact h2 e he

theorem verdict_nil : verdict [] = AVIF_OK := rfl

theorem verdict_cons (e : Event) (l : List Event) :
    verdict (e :: l) = if e.failed = true then e.code else verdict l := by
  unfold verdict
  rw [List.find?_cons]
  cases e.failed <;> simp

theorem failed_code_ne (e : Event) (h : e.failed = true) : e.code ≠ AVIF_OK := by
  cases e <;> simp_all [Event.failed, Event.code, AVIF_OK, AVIF_ERROR_CODEC_INIT,
    AVIF_ERROR_FRAME_ENCODE, AVIF_ERROR_CODEC_DESTROY]

theorem verdict_eq_ok_iff (l : List Event) : verdict l = AVIF_OK ↔ clean l := by
  induction l with
  | nil => simp [verdict_nil, clean]
  | cons e l ih =>
    rw [verdict_cons]
    by_cases he : e.failed = true
    · rw [if_pos he]
      constructor
      · intro h; exact absurd h (failed_code_ne e he)
      · intro h
        have := h e (List.mem_cons_self _ _)
        rw [he] at this
        cases this
    · rw [if_neg he, ih]
      simp only [clean, List.mem_cons, forall_eq_or_imp]
      constructor
      · intro h; exact ⟨by simpa using he, h⟩
      · intro h; exact h.2

theorem verdict_of_clean (evs : List Event) (h : clean evs) : verdict evs = AVIF_OK := by
  unfold verdict
  have : evs.find? Event.failed = none := by
    rw [List.find?_eq_none]
    intro e he
    simp [h e he]
  rw [this]

theorem verdict_append (a b : List Event) :
    verdict (a ++ b) = if verdict a = AVIF_OK then verdict b else verdict a := by
  induction a with
  | nil => simp [verdict_nil]
  | cons e a ih =>
    rw [List.cons_append, verdict_cons, verdict_cons]
    by_cases he : e.failed = true
    · simp only [if_pos he, if_neg (failed_code_ne e he)]
    · simp only [if_neg he, ih, if_false]

theorem verdict_mem (l : List Event) :
    verdict l = AVIF_OK ∨ verdict l = AVIF_ERROR_CODEC_INIT ∨
    verdict l = AVIF_ERROR_CODEC_DESTROY ∨ verdict l = AVIF_ERROR_FRAME_ENCODE := by
  unfold verdict
  cases l.find? Event.failed with
  | none => exact Or.inl rfl
  | some e => cases e <;> simp [Event.code]

theorem verdict_find (l : List Event) (h : verdict l ≠ AVIF_OK) :
    ∃ e, l.find? Event.failed = some e ∧ verdict l = e.code := by
  unfold verdict at h ⊢
  cases hf : l.find? Event.failed with
  | none => rw [hf] at h; exact absurd rfl h
  | some e => exact ⟨e, rfl, rfl⟩

theorem feed_events_calls (f : Option aom_image_t) (pk : List aom_codec_cx_pkt_t) :
    ∀ e ∈ feed_events f pk, e.is_pass_call = true ∧ e.failed = false := by
  intro e he
  simp only [feed_events, pkt_events, List.mem_cons, List.mem_append, List.mem_map,
    List.mem_singleton, List.not_mem_nil, or_false] at he
  rcases he with rfl | ⟨p, _, rfl⟩ | rfl <;> exact ⟨rfl, rfl⟩

theorem flush_events_calls (fl : List (List aom_codec_cx_pkt_t)) :
    ∀ e ∈ flush_events fl, e.is_pass_call = true ∧ e.failed = false := by
  intro e he
  simp only [flush_events, List.mem_flatten, List.mem_map] at he
  obtain ⟨l, ⟨pk, _, rfl⟩, hl⟩ := he
  exact feed_events_calls none pk e hl

theorem pass1_events_no_destroy (a : List Event) (h : ∀ e ∈ a, e.is_destroy = false) :
    pass1_events a = a := by
  induction a with
  | nil => rfl
  | cons x a ih =>
    have hx := h x (List.mem_cons_self _ _)
    have := ih fun e he => h e (List.mem_cons_of_mem _ he)
    unfold pass1_events at this ⊢
    simp [List.takeWhile_cons, hx, this]

theorem pass1_events_destroy (a b : List Event) (err : Bool)
    (h : ∀ e ∈ a, e.is_destroy = false) :
    pass1_events (a ++ Event.destroy err :: b) = a := by
  induction a with
  | nil => simp [pass1_events, List.takeWhile_cons, Event.is_destroy]
  | cons x a ih =>
    have hx := h x (List.mem_cons_self _ _)
    have := ih fun e he => h e (List.mem_cons_of_mem _ he)
    unfold pass1_events at this ⊢
    simp [List.takeWhile_cons, hx, this]

theorem faithful_append (E : Engine) (h a b : List Event) :
    faithful E h (a ++ b) ↔ faithful E h a ∧ faithful E (h ++ a) b := by
  induction a generalizing h with
  | nil => simp [faithful]
  | cons e a ih =>
    have e1 : faithful E h (e :: a ++ b) ↔
        e.answers E h ∧ faithful E (h ++ [e]) (a ++ b) := Iff.rfl
    have e2 : faithful E h (e :: a) ↔ e.answers E h ∧ faithful E (h ++ [e]) a := Iff.rfl
    have e3 : h ++ e :: a = h ++ [e] ++ a := by simp
    rw [e1, e2, ih, e3, and_assoc]

theorem clean_of_faithful (E : Engine) (h l : List Event) (hn : E.never_fails)
    (hf : faithful E h l) : clean l := by
  induction l generalizing h with
  | nil => intro e he; cases he
  | cons x l ih =>
    obtain ⟨hx, hl⟩ := hf
    obtain ⟨n1, n2, n3, n4, n5⟩ := hn
    intro e he
    rcases List.mem_cons.1 he with rfl | he
    · cases e with
      | config_default u c err =>
        have := n1 h u
        simp only [Event.answers] at hx
        rw [hx] at this
        exact this
      | enc_init c f err => exact hx ▸ n2 h c f
      | control c v err => exact hx ▸ n3 h c v
      | encode i p d f err => exact hx ▸ n4 h i p d f
      | get_cx_data p => rfl
      | destroy err => exact hx ▸ n5 h
      | free b => rfl
    · exact ih (h ++ [x]) hl e he

theorem faithful_singleton (E : Engine) (h : List Event) (e : Event) :
    faithful E h [e] ↔ e.answers E h := by
  simp [faithful]

/-! ## Machine integers -/

theorem wrap32_of_range (x : Int) (h1 : -2147483648 ≤ x) (h2 : x ≤ 2147483647) :
    wrap32 x = x := by
  unfold wrap32
  omega

theorem to_unsigned_of_nonneg (x : Int) (h0 : 0 ≤ x) (h1 : x ≤ INT_MAX) :
    to_unsigned x = x.toNat := by
  unfold to_unsigned
  unfold INT_MAX at h1
  congr 1
  omega

theorem ceil_half (n : Nat) : ⌈(n : ℚ) / 2⌉₊ = (n + 1) / 2 := by
  rcases Nat.even_or_odd' n with ⟨m, rfl | rfl⟩
  · have e : (2 * m + 1) / 2 = m := by omega
    rw [e]
    have : ((2 * m : ℕ) : ℚ) / 2 = (m : ℚ) := by push_cast; ring
    rw [this, Nat.ceil_natCast]
  · have e : (2 * m + 1 + 1) / 2 = m + 1 := by omega
    rw [e, Nat.ceil_eq_iff (by omega)]
    constructor
    · simp only [Nat.add_sub_cancel]
      push_cast
      linarith
    · push_cast; linarith

theorem tdiv_two_of_nat (n : Nat) : Int.tdiv (n : Int) 2 = ((n / 2 : Nat) : Int) := by
  rw [Int.tdiv_eq_ediv] <;> omega

/-! ## The packet loop, one feed, the flush loop, a pass -/

theorem drain_spec (E : Engine) (k : aom_codec_cx_pkt_kind) (fuel : Nat) (tr : List Event)
    (g : Int) (b : avif_buffer) (g' : Int) (b' : avif_buffer) (tr' : List Event)
    (h : drain E k fuel tr g b = some (g', b', tr')) :
    ∃ pk : List aom_codec_cx_pkt_t,
      tr' = tr ++ (pkt_events pk ++ [Event.get_cx_data none]) ∧
      b'.buf = b.buf ++ (payloads k (pkt_events pk)).flatten ∧
      b'.sz = b.sz + ((payloads k (pkt_events pk)).map List.length).sum ∧
      g' = (if pk = [] then g else 1) ∧
      (pk ≠ [] → (E.aom_codec_get_cx_data tr).isSome = true) := by
  induction fuel generalizing tr g b with
  | zero => simp [drain] at h
  | succ n ih =>
    unfold drain at h
    cases hc : E.aom_codec_get_cx_data tr with
    | none =>
      rw [hc] at h
      simp only [Option.some.injEq, Prod.mk.injEq] at h
      obtain ⟨rfl, rfl, rfl⟩ := h
      exact ⟨[], by simp [pkt_events, payloads]⟩
    | some pkt =>
      rw [hc] at h
      simp only at h
      by_cases hk : pkt.kind = k
      · rw [if_pos hk] at h
        obtain ⟨pk, h1, h2, h3, _, _⟩ := ih _ _ _ h
        refine ⟨pkt :: pk, ?_, ?_, ?_, ?_, ?_⟩
        · rw [h1]; simp [pkt_events]
        · rw [h2, payloads_pkt_cons, if_pos hk]; simp
        · rw [h3, payloads_pkt_cons, if_pos hk]; simp; omega
        · simp; rcases h' : pk with _ | ⟨q, r⟩ <;> simp_all
        · simp
      · rw [if_neg hk] at h
        obtain ⟨pk, h1, h2, h3, _, _⟩ := ih _ _ _ h
        refine ⟨pkt :: pk, ?_, ?_, ?_, ?_, ?_⟩
        · rw [h1]; simp [pkt_events]
        · rw [h2, payloads_pkt_cons, if_neg hk]; simp
        · rw [h3, payloads_pkt_cons, if_neg hk]; simp
        · simp; rcases h' : pk with _ | ⟨q, r⟩ <;> simp_all
        · simp

theorem feed_spec (E : Engine) (k : aom_codec_cx_pkt_kind) (fuel : Nat) (tr : List Event)
    (f : Option aom_image_t) (b : avif_buffer) (res : Int) (b' : avif_buffer)
    (tr' : List Event) (h : feed E k fuel tr f b = some (res, b', tr')) :
    (res = AVIF_ERROR_FRAME_ENCODE ∧ b' = b ∧ tr' = tr ++ [Event.encode f 1 1 0 true]) ∨
    ∃ pk : List aom_codec_cx_pkt_t,
      tr' = tr ++ feed_events f pk ∧
      b'.buf = b.buf ++ (payloads k (pkt_events pk)).flatten ∧
      b'.sz = b.sz + ((payloads k (pkt_events pk)).map List.length).sum ∧
      res = (if pk = [] then 0 else 1) ∧
      (pk ≠ [] →
        (E.aom_codec_get_cx_data (tr ++ [Event.encode f 1 1 0 false])).isSome = true) := by
  unfold feed at h
  by_cases he : E.aom_codec_encode tr f 1 1 0 = true
  · rw [if_pos he] at h
    simp only [Option.some.injEq, Prod.mk.injEq] at h
    obtain ⟨rfl, rfl, rfl⟩ := h
    exact Or.inl ⟨rfl, rfl, rfl⟩
  · rw [if_neg he] at h
    obtain ⟨pk, h1, h2, h3, h4, h5⟩ := drain_spec E k fuel _ _ _ _ _ _ h
    exact Or.inr ⟨pk, by rw [h1]; simp [feed_events], h2, h3, h4, h5⟩

theorem flush_spec (E : Engine) (k : aom_codec_cx_pkt_kind) (fuel n : Nat) (tr : List Event)
    (b : avif_buffer) (res : Int) (b' : avif_buffer) (tr' : List Event)
    (h : flush E k fuel n tr b = some (res, b', tr')) :
    ∃ fl : List (List aom_codec_cx_pkt_t),
      (∀ l ∈ fl, l ≠ []) ∧
      b'.buf = b.buf ++ (payloads k (flush_events fl)).flatten ∧
      b'.sz = b.sz + ((payloads k (flush_events fl)).map List.length).sum ∧
      ((res = AVIF_ERROR_FRAME_ENCODE ∧
          tr' = tr ++ flush_events fl ++ [Event.encode none 1 1 0 true]) ∨
       (res = 0 ∧ tr' = tr ++ flush_events fl ++ feed_events none [])) := by
  induction n generalizing tr b with
  | zero => simp [flush] at h
  | succ n ih =>
    unfold flush at h
    cases hf : feed E k fuel tr none b with
    | none => rw [hf] at h; simp at h
    | some r =>
      obtain ⟨r1, b1, tr1⟩ := r
      rw [hf] at h
      simp only at h
      rcases feed_spec E k fuel tr none b r1 b1 tr1 hf with ⟨e1, e2, e3⟩ | ⟨pk, e1, e2, e3, e4, _⟩
      · subst e1 e2 e3
        rw [if_neg (by decide)] at h
        simp only [Option.some.injEq, Prod.mk.injEq] at h
        obtain ⟨rfl, rfl, rfl⟩ := h
        exact ⟨[], by simp, by simp [flush_events, payloads], by simp [flush_events, payloads],
          Or.inl ⟨rfl, by simp [flush_events]⟩⟩
      · by_cases hp : pk = []
        · subst hp
          simp only [if_true] at e4
          subst e4
          rw [if_neg (by decide)] at h
          simp only [Option.some.injEq, Prod.mk.injEq] at h
          obtain ⟨rfl, rfl, rfl⟩ := h
          refine ⟨[], by simp, ?_, ?_, Or.inr ⟨rfl, by simp [flush_events, e1]⟩⟩
          · simpa [flush_events, payloads, pkt_events] using e2
          · simpa [flush_events, payloads, pkt_events] using e3
        · rw [if_neg hp] at e4
          subst e4
          rw [if_pos (by decide)] at h
          obtain ⟨fl, g1, g2, g3, g4⟩ := ih _ _ h
          refine ⟨pk :: fl, ?_, ?_, ?_, ?_⟩
          · intro l hl
            rcases List.mem_cons.1 hl with rfl | hl
            · exact hp
            · exact g1 l hl
          · rw [g2, e2, flush_events_cons, payloads_append, payloads_feed_events]; simp
          · rw [g3, e3, flush_events_cons, payloads_append, payloads_feed_events]; simp; omega
          · rcases g4 with ⟨q1, q2⟩ | ⟨q1, q2⟩
            · exact Or.inl ⟨q1, by rw [q2, e1, flush_events_cons]; simp⟩
            · exact Or.inr ⟨q1, by rw [q2, e1, flush_events_cons]; simp⟩

/-- Every finished pass ended in one of the ways of `pass_outcome`. -/
theorem pass_spec (E : Engine) (k : aom_codec_cx_pkt_kind) (fuel : Nat) (tr : List Event)
    (frame : aom_image_t) (b : avif_buffer) (res : avif_error) (b' : avif_buffer)
    (tr' : List Event) (h : pass E k fuel tr frame b = some (res, b', tr')) :
    pass_outcome k tr frame b res b' tr' := by
  unfold pass_outcome
  unfold pass at h
  cases hf : feed E k fuel tr (some frame) b with
  | none => rw [hf] at h; simp at h
  | some r =>
    obtain ⟨r1, b1, tr1⟩ := r
    rw [hf] at h
    simp only at h
    rcases feed_spec E k fuel tr _ b r1 b1 tr1 hf with ⟨e1, e2, e3⟩ | ⟨pk, e1, e2, e3, e4, _⟩
    · subst e1 e2 e3
      rw [if_pos (by decide), if_pos (by decide)] at h
      simp only [Option.some.injEq, Prod.mk.injEq] at h
      obtain ⟨rfl, rfl, rfl⟩ := h
      exact Or.inl ⟨rfl, rfl, rfl⟩
    · have hr : ¬ r1 < 0 := by
        rw [e4]; split <;> decide
      rw [if_neg hr] at h
      cases hfl : flush E k fuel fuel tr1 b1 with
      | none => rw [hfl] at h; simp at h
      | some r2 =>
        obtain ⟨r2, b2, tr2⟩ := r2
        rw [hfl] at h
        simp only [Option.some.injEq, Prod.mk.injEq] at h
        obtain ⟨h1, h2, h3⟩ := h
        subst h2 h3
        obtain ⟨fl, g1, g2, g3, g4⟩ := flush_spec E k fuel fuel tr1 b1 r2 _ _ hfl
        refine Or.inr ⟨pk, fl, g1, ?_, ?_, ?_⟩
        · rw [g2, e2, payloads_append, payloads_feed_events]; simp
        · rw [g3, e3, payloads_append, payloads_feed_events]; simp; omega
        · rcases g4 with ⟨q1, q2⟩ | ⟨q1, q2⟩
          · subst q1
            rw [if_pos (by decide)] at h1
            exact Or.inl ⟨h1.symm, by rw [q2, e1]; simp⟩
          · subst q1
            rw [if_neg (by decide)] at h1
            exact Or.inr ⟨h1.symm, by rw [q2, e1]; simp⟩

/-- What a finished pass appended to its buffer, read off the trace. -/
theorem pass_buffer (E : Engine) (k : aom_codec_cx_pkt_kind) (fuel : Nat) (tr : List Event)
    (frame : aom_image_t) (b : avif_buffer) (res : avif_error) (b' : avif_buffer)
    (tr' : List Event) (h : pass E k fuel tr frame b = some (res, b', tr')) :
    ∃ new : List Event, tr' = tr ++ new ∧
      b'.buf = b.buf ++ (payloads k new).flatten ∧
      b'.sz = b.sz + ((payloads k new).map List.length).sum ∧
      (clean new → res = AVIF_OK ∧
        ∃ pre, new = Event.encode (some frame) 1 1 0 false ::
          (pre ++ [Event.encode none 1 1 0 false, Event.get_cx_data none])) := by
  rcases pass_spec E k fuel tr frame b res b' tr' h with
    ⟨_, e2, e3⟩ | ⟨pk0, fl, _, g2, g3, ⟨_, q2⟩ | ⟨q1, q2⟩⟩
  · subst e2
    refine ⟨_, e3, by simp [payloads, Event.payload], by simp [payloads, Event.payload], ?_⟩
    intro hc
    have := hc _ (List.mem_singleton.2 rfl)
    simp [Event.failed] at this
  · refine ⟨_, q2, ?_, ?_, ?_⟩
    · rw [g2, payloads_append _ _ [Event.encode none 1 1 0 true]]
      simp [payloads, Event.payload]
    · rw [g3, payloads_append _ _ [Event.encode none 1 1 0 true]]
      simp [payloads, Event.payload]
    · intro hc
      have := ((clean_append _ _).1 hc).2 _ (List.mem_singleton.2 rfl)
      simp [Event.failed] at this
  · refine ⟨_, q2, ?_, ?_, ?_⟩
    · rw [g2, payloads_append _ _ (feed_events none [])]
      simp [payloads, Event.payload, feed_events, pkt_events]
    · rw [g3, payloads_append _ _ (feed_events none [])]
      simp [payloads, Event.payload, feed_events, pkt_events]
    · intro _
      exact ⟨q1, pkt_events pk0 ++ [Event.get_cx_data none] ++ flush_events fl,
        by simp [feed_events, pkt_events]⟩

theorem drain_faithful (E : Engine) (k : aom_codec_cx_pkt_kind) (fuel : Nat) (tr : List Event)
    (g : Int) (b : avif_buffer) (g' : Int) (b' : avif_buffer) (tr' : List Event)
    (h : drain E k fuel tr g b = some (g', b', tr')) :
    ∃ new, tr' = tr ++ new ∧ faithful E tr new := by
  induction fuel generalizing tr g b with
  | zero => simp [drain] at h
  | succ n ih =>
    unfold drain at h
    cases hc : E.aom_codec_get_cx_data tr with
    | none =>
      rw [hc] at h
      simp only [Option.some.injEq, Prod.mk.injEq] at h
      obtain ⟨_, _, rfl⟩ := h
      exact ⟨_, rfl, hc, trivial⟩
    | some pkt =>
      rw [hc] at h
      simp only at h
      have key : ∀ g1 b1, drain E k n (tr ++ [Event.get_cx_data (some pkt)]) g1 b1 =
          some (g', b', tr') → ∃ new, tr' = tr ++ new ∧ faithful E tr new := by
        intro g1 b1 h1
        obtain ⟨new, e1, e2⟩ := ih _ _ _ h1
        exact ⟨Event.get_cx_data (some pkt) :: new, by rw [e1]; simp, hc, e2⟩
      split at h
      · exact key _ _ h
      · exact key _ _ h

theorem feed_faithful (E : Engine) (k : aom_codec_cx_pkt_kind) (fuel : Nat) (tr : List Event)
    (f : Option aom_image_t) (b : avif_buffer) (res : Int) (b' : avif_buffer)
    (tr' : List Event) (h : feed E k fuel tr f b = some (res, b', tr')) :
    ∃ new, tr' = tr ++ new ∧ faithful E tr new := by
  unfold feed at h
  by_cases he : E.aom_codec_encode tr f 1 1 0 = true
  · rw [if_pos he] at h
    simp only [Option.some.injEq, Prod.mk.injEq] at h
    obtain ⟨_, _, rfl⟩ := h
    exact ⟨_, rfl, he, trivial⟩
  · rw [if_neg he] at h
    obtain ⟨new, e1, e2⟩ := drain_faithful E k fuel _ _ _ _ _ _ h
    exact ⟨Event.encode f 1 1 0 false :: new, by rw [e1]; simp, by simpa using he, e2⟩

theorem flush_faithful (E : Engine) (k : aom_codec_cx_pkt_kind) (fuel n : Nat)
    (tr : List Event) (b : avif_buffer) (res : Int) (b' : avif_buffer) (tr' : List Event)
    (h : flush E k fuel n tr b = some (res, b', tr')) :
    ∃ new, tr' = tr ++ new ∧ faithful E tr new := by
  induction n generalizing tr b with
  | zero => simp [flush] at h
  | succ n ih =>
    unfold flush at h
    cases hf : feed E k fuel tr none b with
    | none => rw [hf] at h; simp at h
    | some r =>
      obtain ⟨r1, b1, tr1⟩ := r
      rw [hf] at h
      simp only at h
      obtain ⟨n1, rfl, f1⟩ := feed_faithful E k fuel tr none b r1 b1 tr1 hf
      split at h
      · obtain ⟨n2, rfl, f2⟩ := ih _ _ h
        exact ⟨n1 ++ n2, by simp, (faithful_append E tr n1 n2).2 ⟨f1, f2⟩⟩
      · simp only [Option.some.injEq, Prod.mk.injEq] at h
        obtain ⟨_, _, rfl⟩ := h
        exact ⟨n1, rfl, f1⟩

theorem pass_faithful (E : Engine) (k : aom_codec_cx_pkt_kind) (fuel : Nat) (tr : List Event)
    (frame : aom_image_t) (b : avif_buffer) (res : avif_error) (b' : avif_buffer)
    (new : List Event) (h : pass E k fuel tr frame b = some (res, b', tr ++ new)) :
    faithful E tr new := by
  unfold pass at h
  cases hf : feed E k fuel tr (some frame) b with
  | none => rw [hf] at h; simp at h
  | some r =>
    obtain ⟨r1, b1, tr1⟩ := r
    rw [hf] at h
    simp only at h
    obtain ⟨n1, rfl, f1⟩ := feed_faithful E k fuel tr _ b r1 b1 tr1 hf
    split at h
    · simp only [Option.some.injEq, Prod.mk.injEq, List.append_cancel_left_eq] at h
      obtain ⟨_, _, rfl⟩ := h
      exact f1
    · cases hfl : flush E k fuel fuel (tr ++ n1) b1 with
      | none => rw [hfl] at h; simp at h
      | some r2 =>
        obtain ⟨r2, b2, tr2⟩ := r2
        rw [hfl] at h
        obtain ⟨n2, rfl, f2⟩ := flush_faithful E k fuel fuel _ b1 r2 b2 tr2 hfl
        simp only [Option.some.injEq, Prod.mk.injEq, List.append_assoc,
          List.append_cancel_left_eq] at h
        obtain ⟨_, _, rfl⟩ := h
        exact (faithful_append E tr n1 n2).2 ⟨f1, f2⟩

/-! ## Enough fuel: the loops leave when the engine runs out of packets -/

theorem drain_total (E : Engine) (k : aom_codec_cx_pkt_kind) (N : Nat)
    (hq : E.quiet_after N) (fuel : Nat) (tr : List Event) (g : Int) (b : avif_buffer)
    (h1 : N < fuel + tr.length) (h2 : 0 < fuel) :
    (drain E k fuel tr g b).isSome = true := by
  induction fuel generalizing tr g b with
  | zero => omega
  | succ n ih =>
    unfold drain
    cases hc : E.aom_codec_get_cx_data tr with
    | none => simp
    | some pkt =>
      have hlt : tr.length < N := by
        by_contra hn
        have := hq tr (by omega)
        rw [this] at hc
        cases hc
      simp only
      split
      · exact ih _ _ _ (by simp; omega) (by omega)
      · exact ih _ _ _ (by simp; omega) (by omega)

theorem feed_total (E : Engine) (k : aom_codec_cx_pkt_kind) (N : Nat)
    (hq : E.quiet_after N) (fuel : Nat) (tr : List Event) (f : Option aom_image_t)
    (b : avif_buffer) (h1 : N < fuel) :
    (feed E k fuel tr f b).isSome = true := by
  unfold feed
  split
  · simp
  · exact drain_total E k N hq fuel _ _ _ (by omega) (by omega)

theorem flush_total (E : Engine) (k : aom_codec_cx_pkt_kind) (N : Nat)
    (hq : E.quiet_after N) (fuel : Nat) (hf : N < fuel) (n : Nat) (tr : List Event)
    (b : avif_buffer) (h1 : N < n + tr.length) (h2 : 0 < n) :
    (flush E k fuel n tr b).isSome = true := by
  induction n generalizing tr b with
  | zero => omega
  | succ n ih =>
    unfold flush
    have ht := feed_total E k N hq fuel tr none b hf
    cases hfd : feed E k fuel tr none b with
    | none => rw [hfd] at ht; cases ht
    | some r =>
      obtain ⟨r1, b1, tr1⟩ := r
      simp only
      by_cases hr : r1 > 0
      · rw [if_pos hr]
        rcases feed_spec E k fuel tr none b r1 b1 tr1 hfd with ⟨e1, _, _⟩ | ⟨pk, e1, _, _, e4, e5⟩
        · subst e1
          exact absurd hr (by decide)
        · have hp : pk ≠ [] := by
            intro hp
            rw [if_pos hp] at e4
            omega
          have hs := e5 hp
          have hlt : tr.length + 1 < N := by
            by_contra hn
            have := hq (tr ++ [Event.encode none 1 1 0 false]) (by simp; omega)
            rw [this] at hs
            cases hs
          exact ih _ _ (by rw [e1]; simp [feed_events]; omega) (by omega)
      · rw [if_neg hr]
        simp

theorem pass_total (E : Engine) (k : aom_codec_cx_pkt_kind) (N : Nat)
    (hq : E.quiet_after N) (fuel : Nat) (hf : N < fuel) (tr : List Event)
    (frame : aom_image_t) (b : avif_buffer) :
    (pass E k fuel tr frame b).isSome = true := by
  unfold pass
  have ht := feed_total E k N hq fuel tr (some frame) b hf
  cases hfd : feed E k fuel tr (some frame) b with
  | none => rw [hfd] at ht; cases ht
  | some r =>
    obtain ⟨r1, b1, tr1⟩ := r
    simp only
    split
    · simp
    · have hl := flush_total E k N hq fuel hf fuel tr1 b1 (by omega) (by omega)
      cases hfl : flush E k fuel fuel tr1 b1 with
      | none => rw [hfl] at hl; cases hl
      | some r2 => simp

/-! ## `init_codec` -/

theorem ctl_post_nil (tr : List Event) : ctl_post [] tr (AVIF_OK, tr) :=
  ⟨[], by simp, by simp [verdict], by simp, fun _ => rfl⟩

theorem SET_CODEC_CONTROL_post (E : Engine) (c : aome_enc_control_id) (v : Int)
    (tr : List Event) (k : List Event → avif_error × List Event)
    (exp : List (aome_enc_control_id × Int)) (hk : ∀ tr1, ctl_post exp tr1 (k tr1)) :
    ctl_post ((c, v) :: exp) tr (SET_CODEC_CONTROL E c v tr k) := by
  unfold SET_CODEC_CONTROL
  split
  · exact ⟨[Event.control c v true], rfl, by simp [verdict, Event.failed, Event.code],
      by simp [Event.is_control], by simp [clean, Event.failed]⟩
  · obtain ⟨done, h1, h2, h3, h4⟩ := hk (tr ++ [Event.control c v false])
    refine ⟨Event.control c v false :: done, by rw [h1]; simp, ?_, ?_, ?_⟩
    · rw [h2]; simp [verdict, Event.failed]
    · intro e he
      rcases List.mem_cons.1 he with rfl | he
      · rfl
      · exact h3 e he
    · intro hc
      have : clean done := fun e he => hc e (List.mem_cons_of_mem _ he)
      rw [h4 this]; simp [ctl_events]

theorem init_codec_post (E : Engine) (tr : List Event) (aom_cfg : aom_codec_enc_cfg_t)
    (cfg : avif_config) :
    ∃ (err : Bool) (done : List Event),
      (init_codec E tr aom_cfg cfg).2 = tr ++ Event.enc_init aom_cfg 0 err :: done ∧
      (init_codec E tr aom_cfg cfg).1 = verdict (Event.enc_init aom_cfg 0 err :: done) ∧
      (∀ e ∈ done, e.is_control = true) ∧
      (clean (Event.enc_init aom_cfg 0 err :: done) →
        err = false ∧ done = ctl_events (expected_controls cfg)) := by
  unfold init_codec
  split
  · exact ⟨true, [], rfl, by simp [verdict, Event.failed, Event.code], by simp,
      by simp [clean, Event.failed]⟩
  · have h4 : ∀ tr1, ctl_post [(.AV1E_SET_TILE_COLUMNS, 1), (.AV1E_SET_TILE_ROWS, 1),
        (.AV1E_SET_ROW_MT, 1), (.AV1E_SET_FRAME_PARALLEL_DECODING, 0)] tr1
        (SET_CODEC_CONTROL E .AV1E_SET_TILE_COLUMNS 1 tr1 fun tr =>
          SET_CODEC_CONTROL E .AV1E_SET_TILE_ROWS 1 tr fun tr =>
          SET_CODEC_CONTROL E .AV1E_SET_ROW_MT 1 tr fun tr =>
          SET_CODEC_CONTROL E .AV1E_SET_FRAME_PARALLEL_DECODING 0 tr fun tr => (AVIF_OK, tr)) :=
      fun tr1 => SET_CODEC_CONTROL_post _ _ _ _ _ _ fun _ =>
        SET_CODEC_CONTROL_post _ _ _ _ _ _ fun _ =>
        SET_CODEC_CONTROL_post _ _ _ _ _ _ fun _ =>
        SET_CODEC_CONTROL_post _ _ _ _ _ _ fun _ => ctl_post_nil _
    have h : ctl_post (expected_controls cfg) (tr ++ [Event.enc_init aom_cfg 0 false])
        (SET_CODEC_CONTROL E .AOME_SET_CPUUSED cfg.speed (tr ++ [Event.enc_init aom_cfg 0 false])
          fun tr =>
          SET_CODEC_CONTROL E .AOME_SET_CQ_LEVEL cfg.quality tr fun tr =>
          let rest : List Event → avif_error × List Event := fun tr =>
            SET_CODEC_CONTROL E .AV1E_SET_TILE_COLUMNS 1 tr fun tr =>
            SET_CODEC_CONTROL E .AV1E_SET_TILE_ROWS 1 tr fun tr =>
            SET_CODEC_CONTROL E .AV1E_SET_ROW_MT 1 tr fun tr =>
            SET_CODEC_CONTROL E .AV1E_SET_FRAME_PARALLEL_DECODING 0 tr fun tr =>
            (AVIF_OK, tr)
          if cfg.quality = 0 then
            SET_CODEC_CONTROL E .AV1E_SET_LOSSLESS 1 tr rest
          else
            rest tr) := by
      unfold expected_controls
      by_cases hq : cfg.quality = 0
      · simp only [hq, if_true]
        exact SET_CODEC_CONTROL_post _ _ _ _ _ _ fun _ =>
          SET_CODEC_CONTROL_post _ _ _ _ _ _ fun _ =>
          SET_CODEC_CONTROL_post _ _ _ _ _ _ h4
      · simp only [hq, if_false]
        exact SET_CODEC_CONTROL_post _ _ _ _ _ _ fun _ =>
          SET_CODEC_CONTROL_post _ _ _ _ _ _ h4
    obtain ⟨done, h1, h2, h3, h5⟩ := h
    refine ⟨false, done, by rw [h1]; simp, ?_, h3, ?_⟩
    · rw [h2]; simp [verdict, Event.failed]
    · intro hc
      exact ⟨rfl, h5 fun e he => hc e (List.mem_cons_of_mem _ he)⟩

theorem SET_CODEC_CONTROL_faithful (E : Engine) (c : aome_enc_control_id) (v : Int)
    (tr : List Event) (k : List Event → avif_error × List Event)
    (hk : ∀ tr1, ∃ new, (k tr1).2 = tr1 ++ new ∧ faithful E tr1 new) :
    ∃ new, (SET_CODEC_CONTROL E c v tr k).2 = tr ++ new ∧ faithful E tr new := by
  unfold SET_CODEC_CONTROL
  by_cases hc : E.aom_codec_control tr c v = true
  · rw [if_pos hc]
    exact ⟨_, rfl, hc, trivial⟩
  · rw [if_neg hc]
    obtain ⟨new, e1, e2⟩ := hk (tr ++ [Event.control c v false])
    exact ⟨Event.control c v false :: new, by rw [e1]; simp, by simpa using hc, e2⟩

theorem init_codec_faithful (E : Engine) (tr : List Event) (aom_cfg : aom_codec_enc_cfg_t)
    (cfg : avif_config) (r : avif_error) (new : List Event)
    (h : init_codec E tr aom_cfg cfg = (r, tr ++ new)) : faithful E tr new := by
  have key : ∃ n, (init_codec E tr aom_cfg cfg).2 = tr ++ n ∧ faithful E tr n := by
    unfold init_codec
    by_cases hi : E.aom_codec_enc_init tr aom_cfg 0 = true
    · rw [if_pos hi]
      exact ⟨_, rfl, hi, trivial⟩
    · rw [if_neg hi]
      have h4 : ∀ tr1, ∃ n, (SET_CODEC_CONTROL E .AV1E_SET_TILE_COLUMNS 1 tr1 fun tr =>
          SET_CODEC_CONTROL E .AV1E_SET_TILE_ROWS 1 tr fun tr =>
          SET_CODEC_CONTROL E .AV1E_SET_ROW_MT 1 tr fun tr =>
          SET_CODEC_CONTROL E .AV1E_SET_FRAME_PARALLEL_DECODING 0 tr fun tr =>
            (AVIF_OK, tr)).2 = tr1 ++ n ∧ faithful E tr1 n :=
        fun tr1 => SET_CODEC_CONTROL_faithful _ _ _ _ _ fun _ =>
          SET_CODEC_CONTROL_faithful _ _ _ _ _ fun _ =>
          SET_CODEC_CONTROL_faithful _ _ _ _ _ fun _ =>
          SET_CODEC_CONTROL_faithful _ _ _ _ _ fun tr2 => ⟨[], by simp, trivial⟩
      have h' : ∃ n, (SET_CODEC_CONTROL E .AOME_SET_CPUUSED cfg.speed
          (tr ++ [Event.enc_init aom_cfg 0 false]) fun tr =>
          SET_CODEC_CONTROL E .AOME_SET_CQ_LEVEL cfg.quality tr fun tr =>
          let rest : List Event → avif_error × List Event := fun tr =>
            SET_CODEC_CONTROL E .AV1E_SET_TILE_COLUMNS 1 tr fun tr =>
            SET_CODEC_CONTROL E .AV1E_SET_TILE_ROWS 1 tr fun tr =>
            SET_CODEC_CONTROL E .AV1E_SET_ROW_MT 1 tr fun tr =>
            SET_CODEC_CONTROL E .AV1E_SET_FRAME_PARALLEL_DECODING 0 tr fun tr =>
            (AVIF_OK, tr)
          if cfg.quality = 0 then
            SET_CODEC_CONTROL E .AV1E_SET_LOSSLESS 1 tr rest
          else
            rest tr).2 = (tr ++ [Event.enc_init aom_cfg 0 false]) ++ n ∧
          faithful E (tr ++ [Event.enc_init aom_cfg 0 false]) n := by
        by_cases hq : cfg.quality = 0
        · simp only [hq, if_true]
          exact SET_CODEC_CONTROL_faithful _ _ _ _ _ fun _ =>
            SET_CODEC_CONTROL_faithful _ _ _ _ _ fun _ =>
            SET_CODEC_CONTROL_faithful _ _ _ _ _ h4
        · simp only [hq, if_false]
          exact SET_CODEC_CONTROL_faithful _ _ _ _ _ fun _ =>
            SET_CODEC_CONTROL_faithful _ _ _ _ _ h4
      obtain ⟨n, e1, e2⟩ := h'
      exact ⟨Event.enc_init aom_cfg 0 false :: n, by rw [e1]; simp, by simpa using hi, e2⟩
  obtain ⟨n, e1, e2⟩ := key
  rw [h] at e1
  simp only [List.append_cancel_left_eq] at e1
  rw [e1]
  exact e2

/-! ## `avif_encode_frame`: the ways it returns -/

theorem init_facts_of (E : Engine) (tr : List Event) (c : aom_codec_enc_cfg_t)
    (cfg : avif_config) :
    ∃ r n, init_codec E tr c cfg = (r, tr ++ n) ∧ init_facts c r n := by
  obtain ⟨err, done, h1, h2, h3, _⟩ := init_codec_post E tr c cfg
  exact ⟨_, _, Prod.ext rfl h1, h2, err, done, rfl, h3⟩

theorem pass_facts_of (E : Engine) (k : aom_codec_cx_pkt_kind) (fuel : Nat) (tr : List Event)
    (frame : aom_image_t) (b : avif_buffer) (res : avif_error) (b' : avif_buffer)
    (tr' : List Event) (h : pass E k fuel tr frame b = some (res, b', tr')) :
    ∃ n, tr' = tr ++ n ∧ pass_facts k b res b' n := by
  rcases pass_spec E k fuel tr frame b res b' tr' h with
    ⟨e1, e2, e3⟩ | ⟨pk0, fl, _, g2, g3, g4⟩
  · subst e1 e2
    refine ⟨_, e3, ?_, ?_, ⟨_, _, _, rfl⟩, ?_, ?_⟩
    · simp [verdict_cons, Event.failed, Event.code]
    · simp [Event.is_pass_call]
    · simp [payloads, Event.payload]
    · simp [payloads, Event.payload]
  · have hc1 := feed_events_calls (some frame) pk0
    have hc2 := flush_events_calls fl
    have hc3 := feed_events_calls none []
    have hv1 : verdict (feed_events (some frame) pk0) = AVIF_OK :=
      (verdict_eq_ok_iff _).2 fun e he => (hc1 e he).2
    have hv2 : verdict (flush_events fl) = AVIF_OK :=
      (verdict_eq_ok_iff _).2 fun e he => (hc2 e he).2
    have hv3 : verdict (feed_events none []) = AVIF_OK :=
      (verdict_eq_ok_iff _).2 fun e he => (hc3 e he).2
    rcases g4 with ⟨q1, q2⟩ | ⟨q1, q2⟩
    · refine ⟨_, q2, ?_, ?_, ⟨_, _, _, rfl⟩, ?_, ?_⟩
      · rw [verdict_append, verdict_append, hv1, hv2, q1]
        simp [verdict_cons, Event.failed, Event.code]
      · intro e he
        simp only [List.mem_append, List.mem_singleton] at he
        rcases he with (he | he) | rfl
        · exact (hc1 e he).1
        · exact (hc2 e he).1
        · rfl
      · rw [g2, payloads_append _ _ [Event.encode none 1 1 0 true]]
        simp [payloads, Event.payload]
      · rw [g3, payloads_append _ _ [Event.encode none 1 1 0 true]]
        simp [payloads, Event.payload]
    · refine ⟨_, q2, ?_, ?_, ⟨_, _, _, rfl⟩, ?_, ?_⟩
      · rw [verdict_append, verdict_append, hv1, hv2, hv3, q1]
        simp
      · intro e he
        simp only [List.mem_append] at he
        rcases he with (he | he) | he
        · exact (hc1 e he).1
        · exact (hc2 e he).1
        · exact (hc3 e he).1
      · rw [g2, payloads_append _ _ (feed_events none [])]
        simp [payloads, Event.payload, feed_events, pkt_events]
      · rw [g3, payloads_append _ _ (feed_events none [])]
        simp [payloads, Event.payload, feed_events, pkt_events]

theorem avif_encode_frame_cases (E : Engine) (fuel : Nat) (cfg : avif_config)
    (frame : avif_frame) (obu : avif_buffer) (img : aom_image_t) (run : Run)
    (ht : cfg.threads ≥ 1)
    (hs : cfg.speed ≥ AVIF_MIN_SPEED ∧ cfg.speed ≤ AVIF_MAX_SPEED)
    (hq : cfg.quality ≥ AVIF_MIN_QUALITY ∧ cfg.quality ≤ AVIF_MAX_QUALITY)
    (hw : frame.width ≠ 0 ∧ frame.height ≠ 0)
    (himg : convert_frame frame = some img)
    (h : avif_encode_frame E fuel cfg frame obu = some run) :
    run_case E cfg frame obu run := by
  unfold avif_encode_frame at h
  rw [if_neg (not_not.2 ht), if_neg (not_not.2 hs), if_neg (not_not.2 hq),
    if_neg (not_not.2 hw), himg] at h
  simp only at h
  cases hd : E.aom_codec_enc_config_default [] 0 with
  | mk d err =>
  simp only [hd] at h
  cases err with
  | true =>
    simp only [if_true, fail_label, Option.some.injEq] at h
    subst h
    exact run_case.default_failed d hd
  | false =>
    simp only [Bool.false_eq_true, if_false] at h
    obtain ⟨r1, n1, hi1, hf1⟩ :=
      init_facts_of E [Event.config_default 0 d false] (first_pass_cfg d cfg frame) cfg
    simp only [first_pass_cfg] at hi1
    rw [hi1] at h
    simp only at h
    by_cases hr1 : r1 = 0
    · subst hr1
      simp only [ne_eq, not_true_eq_false, if_false] at h
      rw [do_pass1_eq] at h
      cases hp1 : pass E .AOM_CODEC_STATS_PKT fuel ([Event.config_default 0 d false] ++ n1) img
          ⟨[], 0⟩ with
      | none => rw [hp1] at h; simp at h
      | some x =>
        obtain ⟨r2, st, tr2⟩ := x
        rw [hp1] at h
        simp only at h
        obtain ⟨p1, rfl, hf2⟩ := pass_facts_of E _ fuel _ img _ r2 st tr2 hp1
        by_cases hr2 : r2 = 0
        · subst hr2
          simp only [ne_eq, not_true_eq_false, if_false] at h
          by_cases hd1 : E.aom_codec_destroy ([Event.config_default 0 d false] ++ n1 ++ p1) = true
          · rw [if_pos hd1] at h
            simp only [fail_label, Option.some.injEq] at h
            subst h
            simpa using run_case.destroy1_failed d n1 st p1 hd hf1 hf2
          · rw [if_neg hd1] at h
            obtain ⟨r3, n2, hi3, hf3⟩ :=
              init_facts_of E ([Event.config_default 0 d false] ++ n1 ++ p1 ++ [Event.destroy false])
                (last_pass_cfg d cfg frame st) cfg
            simp only [last_pass_cfg, first_pass_cfg] at hi3
            rw [hi3] at h
            simp only at h
            by_cases hr3 : r3 = 0
            · subst hr3
              simp only [ne_eq, not_true_eq_false, if_false] at h
              rw [do_pass2_eq] at h
              cases hp2 : pass E .AOM_CODEC_CX_FRAME_PKT fuel
                  ([Event.config_default 0 d false] ++ n1 ++ p1 ++ [Event.destroy false] ++ n2)
                  img obu with
              | none => rw [hp2] at h; simp at h
              | some y =>
                obtain ⟨r4, obu', tr4⟩ := y
                rw [hp2] at h
                simp only at h
                obtain ⟨p2, rfl, hf4⟩ := pass_facts_of E _ fuel _ img _ r4 obu' tr4 hp2
                by_cases hr4 : r4 = 0
                · subst hr4
                  simp only [ne_eq, not_true_eq_false, if_false] at h
                  split at h
                  · simp only [fail_label, Option.some.injEq] at h
                    subst h
                    simpa using run_case.destroy2_failed d n1 st p1 n2 obu' p2 hd hf1 hf2 hf3 hf4
                  · simp only [fail_label, Option.some.injEq] at h
                    subst h
                    simpa using run_case.success d n1 st p1 n2 obu' p2 hd hf1 hf2 hf3 hf4
                · simp only [ne_eq, hr4, not_false_eq_true, if_true, fail_label,
                    Option.some.injEq] at h
                  subst h
                  simpa using run_case.pass2_failed d n1 st p1 n2 r4 obu' p2 hd hf1 hf2 hf3 hf4 hr4
            · simp only [ne_eq, hr3, not_false_eq_true, if_true, fail_label,
                Option.some.injEq] at h
              subst h
              simpa using run_case.init2_failed d n1 st p1 r3 n2 hd hf1 hf2 hf3 hr3
        · simp only [ne_eq, hr2, not_false_eq_true, if_true, fail_label, Option.some.injEq] at h
          subst h
          simpa using run_case.pass1_failed d n1 r2 st p1 hd hf1 hf2 hr2
    · simp only [ne_eq, hr1, not_false_eq_true, if_true, fail_label, Option.some.injEq] at h
      subst h
      simpa using run_case.init1_failed d r1 n1 hd hf1 hr1

theorem run_case_of_valid (E : Engine) (fuel : Nat) (cfg : avif_config) (frame : avif_frame)
    (obu : avif_buffer) (run : Run) (hv : valid_input cfg frame)
    (h : avif_encode_frame E fuel cfg frame obu = some run) :
    run_case E cfg frame obu run := by
  obtain ⟨h1, h2, h3, h4, h5, h6⟩ := hv
  have himg : ∃ img, convert_frame frame = some img := by
    simp [convert_frame, convert_subsampling, h6]
  obtain ⟨img, himg⟩ := himg
  exact avif_encode_frame_cases E fuel cfg frame obu img run h1
    (by simpa [AVIF_MIN_SPEED, AVIF_MAX_SPEED] using h2)
    (by simpa [AVIF_MIN_QUALITY, AVIF_MAX_QUALITY] using h3)
    ⟨by omega, by omega⟩ himg h

theorem abort_of_invalid (E : Engine) (fuel : Nat) (cfg : avif_config) (frame : avif_frame)
    (obu : avif_buffer) (hv : ¬ valid_input cfg frame) :
    avif_encode_frame E fuel cfg frame obu = some ⟨.aborted, obu, []⟩ := by
  unfold avif_encode_frame
  by_cases ht : cfg.threads ≥ 1
  swap
  · rw [if_pos ht]
  by_cases hs : cfg.speed ≥ AVIF_MIN_SPEED ∧ cfg.speed ≤ AVIF_MAX_SPEED
  swap
  · rw [if_neg (not_not.2 ht), if_pos hs]
  by_cases hqq : cfg.quality ≥ AVIF_MIN_QUALITY ∧ cfg.quality ≤ AVIF_MAX_QUALITY
  swap
  · rw [if_neg (not_not.2 ht), if_neg (not_not.2 hs), if_pos hqq]
  by_cases hw : frame.width ≠ 0 ∧ frame.height ≠ 0
  swap
  · rw [if_neg (not_not.2 ht), if_neg (not_not.2 hs), if_neg (not_not.2 hqq), if_pos hw]
  rw [if_neg (not_not.2 ht), if_neg (not_not.2 hs), if_neg (not_not.2 hqq),
    if_neg (not_not.2 hw)]
  have hsub : frame.subsampling ≠ AVIF_SUBSAMPLING_I420 := by
    intro hsub
    apply hv
    simp only [AVIF_MIN_SPEED, AVIF_MAX_SPEED, AVIF_MIN_QUALITY, AVIF_MAX_QUALITY] at hs hqq
    exact ⟨ht, ⟨hs.1, hs.2⟩, ⟨hqq.1, hqq.2⟩, by omega, by omega, hsub⟩
  have : convert_frame frame = none := by
    simp [convert_frame, convert_subsampling, hsub]
  rw [this]

theorem avif_encode_frame_total (E : Engine) (N fuel : Nat) (cfg : avif_config)
    (frame : avif_frame) (obu : avif_buffer) (hq : E.quiet_after N) (hf : N < fuel) :
    (avif_encode_frame E fuel cfg frame obu).isSome = true := by
  cases h : avif_encode_frame E fuel cfg frame obu with
  | some r => rfl
  | none =>
    exfalso
    unfold avif_encode_frame at h
    by_cases ht : cfg.threads ≥ 1
    swap
    · rw [if_pos ht] at h; cases h
    by_cases hs : cfg.speed ≥ AVIF_MIN_SPEED ∧ cfg.speed ≤ AVIF_MAX_SPEED
    swap
    · rw [if_neg (not_not.2 ht), if_pos hs] at h; cases h
    by_cases hqq : cfg.quality ≥ AVIF_MIN_QUALITY ∧ cfg.quality ≤ AVIF_MAX_QUALITY
    swap
    · rw [if_neg (not_not.2 ht), if_neg (not_not.2 hs), if_pos hqq] at h; cases h
    by_cases hw : frame.width ≠ 0 ∧ frame.height ≠ 0
    swap
    · rw [if_neg (not_not.2 ht), if_neg (not_not.2 hs), if_neg (not_not.2 hqq),
        if_pos hw] at h
      cases h
    rw [if_neg (not_not.2 ht), if_neg (not_not.2 hs), if_neg (not_not.2 hqq),
      if_neg (not_not.2 hw)] at h
    cases himg : convert_frame frame with
    | none => rw [himg] at h; cases h
    | some img =>
      rw [himg] at h
      simp only at h
      split at h
      · cases h
      split at h
      · cases h
      rw [do_pass1_eq] at h
      have h1 := pass_total E .AOM_CODEC_STATS_PKT N hq fuel hf
      split at h
      · next hp => have h3 := congrArg Option.isSome hp; rw [h1] at h3; cases h3
      split at h
      · cases h
      split at h
      · cases h
      split at h
      · cases h
      rw [do_pass2_eq] at h
      have h2 := pass_total E .AOM_CODEC_CX_FRAME_PKT N hq fuel hf
      split at h
      · next hp => have h3 := congrArg Option.isSome hp; rw [h2] at h3; cases h3
      split at h
      · cases h
      split at h
      · cases h
      cases h

/-- Every call recorded in the trace of a run of `avif_encode_frame` is the
engine's answer at that point of the run. -/
theorem avif_encode_frame_faithful (E : Engine) (fuel : Nat) (cfg : avif_config)
    (frame : avif_frame) (obu : avif_buffer) (run : Run)
    (h : avif_encode_frame E fuel cfg frame obu = some run) :
    faithful E [] run.trace := by
  by_cases hv : valid_input cfg frame
  swap
  · rw [abort_of_invalid E fuel cfg frame obu hv] at h
    cases h
    trivial
  obtain ⟨ht, hs, hq, h4, h5, h6⟩ := hv
  have himg : ∃ img, convert_frame frame = some img := by
    simp [convert_frame, convert_subsampling, h6]
  obtain ⟨img, himg⟩ := himg
  have hs' : cfg.speed ≥ AVIF_MIN_SPEED ∧ cfg.speed ≤ AVIF_MAX_SPEED := by
    simpa [AVIF_MIN_SPEED, AVIF_MAX_SPEED] using hs
  have hq' : cfg.quality ≥ AVIF_MIN_QUALITY ∧ cfg.quality ≤ AVIF_MAX_QUALITY := by
    simpa [AVIF_MIN_QUALITY, AVIF_MAX_QUALITY] using hq
  have hw : frame.width ≠ 0 ∧ frame.height ≠ 0 := ⟨by omega, by omega⟩
  unfold avif_encode_frame at h
  rw [if_neg (not_not.2 ht), if_neg (not_not.2 hs'), if_neg (not_not.2 hq'),
    if_neg (not_not.2 hw), himg] at h
  simp only at h
  cases hd : E.aom_codec_enc_config_default [] 0 with
  | mk d err =>
  simp only [hd] at h
  cases err with
  | true =>
    simp only [if_true, fail_label, Option.some.injEq] at h
    subst h
    simp [faithful, Event.answers, hd]
  | false =>
    simp only [Bool.false_eq_true, if_false] at h
    obtain ⟨r1, n1, hi1, -⟩ :=
      init_facts_of E [Event.config_default 0 d false] (first_pass_cfg d cfg frame) cfg
    have f1 := init_codec_faithful E _ _ cfg r1 n1 hi1
    simp only [first_pass_cfg] at hi1
    rw [hi1] at h
    simp only at h
    by_cases hr1 : r1 = 0
    · subst hr1
      simp only [ne_eq, not_true_eq_false, if_false] at h
      rw [do_pass1_eq] at h
      cases hp1 : pass E .AOM_CODEC_STATS_PKT fuel ([Event.config_default 0 d false] ++ n1) img
          ⟨[], 0⟩ with
      | none => rw [hp1] at h; simp at h
      | some x =>
        obtain ⟨r2, st, tr2⟩ := x
        rw [hp1] at h
        simp only at h
        obtain ⟨p1, rfl, -⟩ := pass_facts_of E _ fuel _ img _ r2 st tr2 hp1
        have f2 := pass_faithful E _ fuel _ img _ r2 st p1 hp1
        by_cases hr2 : r2 = 0
        · subst hr2
          simp only [ne_eq, not_true_eq_false, if_false] at h
          by_cases hd1 : E.aom_codec_destroy ([Event.config_default 0 d false] ++ n1 ++ p1) = true
          · rw [if_pos hd1] at h
            simp only [fail_label, Option.some.injEq] at h
            subst h
            simp only [faithful_append, faithful_singleton, Event.answers, List.nil_append, and_true]
            exact ⟨⟨⟨hd, f1⟩, f2⟩, hd1⟩
          · rw [if_neg hd1] at h
            obtain ⟨r3, n2, hi3, -⟩ :=
              init_facts_of E ([Event.config_default 0 d false] ++ n1 ++ p1 ++ [Event.destroy false])
                (last_pass_cfg d cfg frame st) cfg
            have f3 := init_codec_faithful E _ _ cfg r3 n2 hi3
            simp only [last_pass_cfg, first_pass_cfg] at hi3
            rw [hi3] at h
            simp only at h
            have hd1' : E.aom_codec_destroy ([Event.config_default 0 d false] ++ n1 ++ p1) =
                false := by simpa using hd1
            by_cases hr3 : r3 = 0
            · subst hr3
              simp only [ne_eq, not_true_eq_false, if_false] at h
              rw [do_pass2_eq] at h
              cases hp2 : pass E .AOM_CODEC_CX_FRAME_PKT fuel
                  ([Event.config_default 0 d false] ++ n1 ++ p1 ++ [Event.destroy false] ++ n2)
                  img obu with
              | none => rw [hp2] at h; simp at h
              | some y =>
                obtain ⟨r4, obu', tr4⟩ := y
                rw [hp2] at h
                simp only at h
                obtain ⟨p2, rfl, -⟩ := pass_facts_of E _ fuel _ img _ r4 obu' tr4 hp2
                have f4 := pass_faithful E _ fuel _ img _ r4 obu' p2 hp2
                by_cases hr4 : r4 = 0
                · subst hr4
                  simp only [ne_eq, not_true_eq_false, if_false] at h
                  by_cases hd2 : E.aom_codec_destroy ([Event.config_default 0 d false] ++ n1 ++
                      p1 ++ [Event.destroy false] ++ n2 ++ p2) = true
                  · rw [if_pos hd2] at h
                    simp only [fail_label, Option.some.injEq] at h
                    subst h
                    simp only [faithful_append, faithful_singleton, Event.answers, List.nil_append,
                      and_true]
                    exact ⟨⟨⟨⟨⟨⟨hd, f1⟩, f2⟩, hd1'⟩, f3⟩, f4⟩, hd2⟩
                  · rw [if_neg hd2] at h
                    simp only [fail_label, Option.some.injEq] at h
                    subst h
                    simp only [faithful_append, faithful_singleton, Event.answers, List.nil_append,
                      and_true]
                    exact ⟨⟨⟨⟨⟨⟨hd, f1⟩, f2⟩, hd1'⟩, f3⟩, f4⟩, by simpa using hd2⟩
                · simp only [ne_eq, hr4, not_false_eq_true, if_true, fail_label,
                    Option.some.injEq] at h
                  subst h
                  simp only [faithful_append, faithful_singleton, Event.answers, List.nil_append,
                    and_true]
                  exact ⟨⟨⟨⟨⟨hd, f1⟩, f2⟩, hd1'⟩, f3⟩, f4⟩
            · simp only [ne_eq, hr3, not_false_eq_true, if_true, fail_label,
                Option.some.injEq] at h
              subst h
              simp only [faithful_append, faithful_singleton, Event.answers, List.nil_append, and_true]
              exact ⟨⟨⟨⟨hd, f1⟩, f2⟩, hd1'⟩, f3⟩
        · simp only [ne_eq, hr2, not_false_eq_true, if_true, fail_label, Option.some.injEq] at h
          subst h
          simp only [faithful_append, faithful_singleton, Event.answers, List.nil_append, and_true]
          exact ⟨⟨hd, f1⟩, f2⟩
    · simp only [ne_eq, hr1, not_false_eq_true, if_true, fail_label, Option.some.injEq] at h
      subst h
      simp only [faithful_append, faithful_singleton, Event.answers, List.nil_append, and_true]
      exact ⟨hd, f1⟩

/-! ## `avif_encode_frame`: what every returning run satisfies -/

theorem init_facts_calls (c : aom_codec_enc_cfg_t) (r : avif_error) (n : List Event)
    (h : init_facts c r n) :
    ∀ e ∈ n, e.is_destroy = false ∧ e.is_free = false ∧ e.is_pass_call = false ∧
      e.code = AVIF_ERROR_CODEC_INIT := by
  obtain ⟨_, err, done, rfl, hd⟩ := h
  intro e he
  rcases List.mem_cons.1 he with rfl | he
  · exact ⟨rfl, rfl, rfl, rfl⟩
  · have := hd e he
    cases e <;> simp_all [Event.is_control, Event.is_destroy, Event.is_free,
      Event.is_pass_call, Event.code]

theorem pass_facts_calls (k : aom_codec_cx_pkt_kind) (b : avif_buffer) (r : avif_error)
    (b' : avif_buffer) (n : List Event) (h : pass_facts k b r b' n) :
    ∀ e ∈ n, e.is_destroy = false ∧ e.is_free = false ∧ e.is_enc_init = false ∧
      e.is_control = false := by
  intro e he
  have := h.2.1 e he
  cases e <;> simp_all [Event.is_control, Event.is_destroy, Event.is_free,
    Event.is_pass_call, Event.is_enc_init]

theorem run_verdict (E : Engine) (cfg : avif_config) (frame : avif_frame) (obu : avif_buffer)
    (run : Run) (h : run_case E cfg frame obu run) :
    run.exit = .returned (verdict run.trace) := by
  cases h with
  | default_failed d hd => simp [verdict_cons, Event.failed, Event.code]
  | init1_failed d r1 n1 hd h1 hr =>
    have e1 : verdict n1 = r1 := h1.1.symm
    have e1' : ¬ (r1 = AVIF_OK) := hr
    simp [verdict_cons, verdict_append, Event.failed, e1, e1']
  | pass1_failed d n1 r2 st p1 hd h1 h2 hr =>
    have e1 : verdict n1 = AVIF_OK := h1.1.symm
    have e2 : verdict p1 = r2 := h2.1.symm
    have e2' : ¬ (r2 = AVIF_OK) := hr
    simp [verdict_cons, verdict_append, Event.failed, e1, e2, e2']
  | destroy1_failed d n1 st p1 hd h1 h2 =>
    have e1 : verdict n1 = AVIF_OK := h1.1.symm
    have e2 : verdict p1 = AVIF_OK := h2.1.symm
    simp [verdict_cons, verdict_append, Event.failed, Event.code, e1, e2]
  | init2_failed d n1 st p1 r3 n2 hd h1 h2 h3 hr =>
    have e1 : verdict n1 = AVIF_OK := h1.1.symm
    have e2 : verdict p1 = AVIF_OK := h2.1.symm
    have e3 : verdict n2 = r3 := h3.1.symm
    have e3' : ¬ (r3 = AVIF_OK) := hr
    simp [verdict_cons, verdict_append, Event.failed, e1, e2, e3, e3']
  | pass2_failed d n1 st p1 n2 r4 obu' p2 hd h1 h2 h3 h4 hr =>
    have e1 : verdict n1 = AVIF_OK := h1.1.symm
    have e2 : verdict p1 = AVIF_OK := h2.1.symm
    have e3 : verdict n2 = AVIF_OK := h3.1.symm
    have e4 : verdict p2 = r4 := h4.1.symm
    have e4' : ¬ (r4 = AVIF_OK) := hr
    simp [verdict_cons, verdict_append, Event.failed, e1, e2, e3, e4, e4']
  | destroy2_failed d n1 st p1 n2 obu' p2 hd h1 h2 h3 h4 =>
    have e1 : verdict n1 = AVIF_OK := h1.1.symm
    have e2 : verdict p1 = AVIF_OK := h2.1.symm
    have e3 : verdict n2 = AVIF_OK := h3.1.symm
    have e4 : verdict p2 = AVIF_OK := h4.1.symm
    simp [verdict_cons, verdict_append, Event.failed, Event.code, e1, e2, e3, e4]
  | success d n1 st p1 n2 obu' p2 hd h1 h2 h3 h4 =>
    have e1 : verdict n1 = AVIF_OK := h1.1.symm
    have e2 : verdict p1 = AVIF_OK := h2.1.symm
    have e3 : verdict n2 = AVIF_OK := h3.1.symm
    have e4 : verdict p2 = AVIF_OK := h4.1.symm
    simp [verdict_cons, verdict_append, verdict_nil, Event.failed, e1, e2, e3, e4, AVIF_OK]

theorem payloads_init (k : aom_codec_cx_pkt_kind) (c : aom_codec_enc_cfg_t) (r : avif_error)
    (n : List Event) (h : init_facts c r n) : payloads k n = [] := by
  unfold payloads
  rw [List.filterMap_eq_nil_iff]
  intro e he
  have := (init_facts_calls c r n h e he).2.2.1
  cases e <;> simp_all [Event.is_pass_call, Event.payload]

/-- The statistics buffer after pass 1 holds the statistics payloads of the
calls made up to the end of pass 1. -/
theorem stats_after_pass1 (d : aom_codec_enc_cfg_t) (c : aom_codec_enc_cfg_t)
    (r1 r2 : avif_error) (n1 p1 : List Event) (st : aom_fixed_buf_t)
    (h1 : init_facts c r1 n1) (h2 : pass_facts .AOM_CODEC_STATS_PKT ⟨[], 0⟩ r2 st p1) :
    st.buf = (payloads .AOM_CODEC_STATS_PKT
        (Event.config_default 0 d false :: (n1 ++ p1))).flatten ∧
    st.sz = ((payloads .AOM_CODEC_STATS_PKT
        (Event.config_default 0 d false :: (n1 ++ p1))).map List.length).sum := by
  have e0 : payloads .AOM_CODEC_STATS_PKT (Event.config_default 0 d false :: (n1 ++ p1)) =
      payloads .AOM_CODEC_STATS_PKT p1 := by
    have : Event.config_default 0 d false :: (n1 ++ p1) =
        [Event.config_default 0 d false] ++ (n1 ++ p1) := rfl
    rw [this, payloads_append, payloads_append, payloads_init _ c r1 n1 h1]
    simp [payloads, Event.payload]
  rw [e0]
  obtain ⟨_, _, _, hb, hs⟩ := h2
  exact ⟨by simpa using hb, by simpa using hs⟩

theorem no_destroy_upto_pass1 (d : aom_codec_enc_cfg_t) (c : aom_codec_enc_cfg_t)
    (r1 r2 : avif_error) (n1 p1 : List Event) (st b : aom_fixed_buf_t)
    (k : aom_codec_cx_pkt_kind)
    (h1 : init_facts c r1 n1) (h2 : pass_facts k b r2 st p1) :
    ∀ e ∈ Event.config_default 0 d false :: (n1 ++ p1), e.is_destroy = false := by
  intro e he
  simp only [List.mem_cons, List.mem_append] at he
  rcases he with rfl | he | he
  · rfl
  · exact (init_facts_calls c r1 n1 h1 e he).1
  · exact (pass_facts_calls k b r2 st p1 h2 e he).1

/-- Every returning run ends with the one release of the statistics buffer,
and the bytes released are the statistics payloads delivered in pass 1. -/
theorem run_free (E : Engine) (cfg : avif_config) (frame : avif_frame) (obu : avif_buffer)
    (run : Run) (h : run_case E cfg frame obu run) :
    ∃ body : List Event,
      run.trace = body ++
        [Event.free (payloads .AOM_CODEC_STATS_PKT (pass1_events body)).flatten] ∧
      ∀ e ∈ body, e.is_free = false := by
  cases h with
  | default_failed d hd =>
    exact ⟨[Event.config_default 0 d true],
      by simp [pass1_events, List.takeWhile_cons, Event.is_destroy, payloads, Event.payload],
      by simp [Event.is_free]⟩
  | init1_failed d r1 n1 hd h1 hr =>
    have hn : ∀ e ∈ Event.config_default 0 d false :: n1, e.is_destroy = false := by
      intro e he
      rcases List.mem_cons.1 he with rfl | he
      · rfl
      · exact (init_facts_calls _ r1 n1 h1 e he).1
    refine ⟨Event.config_default 0 d false :: n1, ?_, ?_⟩
    · rw [pass1_events_no_destroy _ hn]
      have : Event.config_default 0 d false :: n1 = [Event.config_default 0 d false] ++ n1 := rfl
      rw [this, payloads_append, payloads_init _ _ r1 n1 h1]
      simp [payloads, Event.payload]
    · intro e he
      rcases List.mem_cons.1 he with rfl | he
      · rfl
      · exact (init_facts_calls _ r1 n1 h1 e he).2.1
  | pass1_failed d n1 r2 st p1 hd h1 h2 hr =>
    refine ⟨Event.config_default 0 d false :: (n1 ++ p1), ?_, ?_⟩
    · rw [pass1_events_no_destroy _ (no_destroy_upto_pass1 d _ _ _ n1 p1 st _ _ h1 h2),
        ← (stats_after_pass1 d _ _ _ n1 p1 st h1 h2).1]
      simp
    · intro e he
      simp only [List.mem_cons, List.mem_append] at he
      rcases he with rfl | he | he
      · rfl
      · exact (init_facts_calls _ _ n1 h1 e he).2.1
      · exact (pass_facts_calls _ _ _ _ p1 h2 e he).2.1
  | destroy1_failed d n1 st p1 hd h1 h2 =>
    refine ⟨Event.config_default 0 d false :: (n1 ++ p1) ++ Event.destroy true :: [], ?_, ?_⟩
    · rw [pass1_events_destroy _ _ _ (no_destroy_upto_pass1 d _ _ _ n1 p1 st _ _ h1 h2),
        ← (stats_after_pass1 d _ _ _ n1 p1 st h1 h2).1]
      simp
    · intro e he
      simp only [List.mem_cons, List.mem_append, List.not_mem_nil, or_false] at he
      rcases he with (rfl | he | he) | rfl
      · rfl
      · exact (init_facts_calls _ _ n1 h1 e he).2.1
      · exact (pass_facts_calls _ _ _ _ p1 h2 e he).2.1
      · rfl
  | init2_failed d n1 st p1 r3 n2 hd h1 h2 h3 hr =>
    refine ⟨Event.config_default 0 d false :: (n1 ++ p1) ++ Event.destroy false :: n2, ?_, ?_⟩
    · rw [pass1_events_destroy _ _ _ (no_destroy_upto_pass1 d _ _ _ n1 p1 st _ _ h1 h2),
        ← (stats_after_pass1 d _ _ _ n1 p1 st h1 h2).1]
      simp
    · intro e he
      simp only [List.mem_cons, List.mem_append] at he
      rcases he with (rfl | he | he) | rfl | he
      · rfl
      · exact (init_facts_calls _ _ n1 h1 e he).2.1
      · exact (pass_facts_calls _ _ _ _ p1 h2 e he).2.1
      · rfl
      · exact (init_facts_calls _ _ n2 h3 e he).2.1
  | pass2_failed d n1 st p1 n2 r4 obu' p2 hd h1 h2 h3 h4 hr =>
    refine ⟨Event.config_default 0 d false :: (n1 ++ p1) ++
      Event.destroy false :: (n2 ++ p2), ?_, ?_⟩
    · rw [pass1_events_destroy _ _ _ (no_destroy_upto_pass1 d _ _ _ n1 p1 st _ _ h1 h2),
        ← (stats_after_pass1 d _ _ _ n1 p1 st h1 h2).1]
      simp
    · intro e he
      simp only [List.mem_cons, List.mem_append] at he
      rcases he with (rfl | he | he) | rfl | he | he
      · rfl
      · exact (init_facts_calls _ _ n1 h1 e he).2.1
      · exact (pass_facts_calls _ _ _ _ p1 h2 e he).2.1
      · rfl
      · exact (init_facts_calls _ _ n2 h3 e he).2.1
      · exact (pass_facts_calls _ _ _ _ p2 h4 e he).2.1
  | destroy2_failed d n1 st p1 n2 obu' p2 hd h1 h2 h3 h4 =>
    refine ⟨Event.config_default 0 d false :: (n1 ++ p1) ++
      Event.destroy false :: (n2 ++ (p2 ++ [Event.destroy true])), ?_, ?_⟩
    · rw [pass1_events_destroy _ _ _ (no_destroy_upto_pass1 d _ _ _ n1 p1 st _ _ h1 h2),
        ← (stats_after_pass1 d _ _ _ n1 p1 st h1 h2).1]
      simp
    · intro e he
      simp only [List.mem_cons, List.mem_append, List.not_mem_nil, or_false] at he
      rcases he with (rfl | he | he) | rfl | he | he | rfl
      · rfl
      · exact (init_facts_calls _ _ n1 h1 e he).2.1
      · exact (pass_facts_calls _ _ _ _ p1 h2 e he).2.1
      · rfl
      · exact (init_facts_calls _ _ n2 h3 e he).2.1
      · exact (pass_facts_calls _ _ _ _ p2 h4 e he).2.1
      · rfl
  | success d n1 st p1 n2 obu' p2 hd h1 h2 h3 h4 =>
    refine ⟨Event.config_default 0 d false :: (n1 ++ p1) ++
      Event.destroy false :: (n2 ++ (p2 ++ [Event.destroy false])), ?_, ?_⟩
    · rw [pass1_events_destroy _ _ _ (no_destroy_upto_pass1 d _ _ _ n1 p1 st _ _ h1 h2),
        ← (stats_after_pass1 d _ _ _ n1 p1 st h1 h2).1]
      simp
    · intro e he
      simp only [List.mem_cons, List.mem_append, List.not_mem_nil, or_false] at he
      rcases he with (rfl | he | he) | rfl | he | he | rfl
      · rfl
      · exact (init_facts_calls _ _ n1 h1 e he).2.1
      · exact (pass_facts_calls _ _ _ _ p1 h2 e he).2.1
      · rfl
      · exact (init_facts_calls _ _ n2 h3 e he).2.1
      · exact (pass_facts_calls _ _ _ _ p2 h4 e he).2.1
      · rfl

theorem init_verdict (c : aom_codec_enc_cfg_t) (r : avif_error) (n : List Event)
    (h : init_facts c r n) : r = AVIF_OK ∨ r = AVIF_ERROR_CODEC_INIT := by
  have hc := init_facts_calls c r n h
  rw [h.1]
  unfold verdict
  cases hf : n.find? Event.failed with
  | none => exact Or.inl rfl
  | some e => exact Or.inr (hc e (List.mem_of_find?_eq_some hf)).2.2.2

theorem init_filter (c : aom_codec_enc_cfg_t) (r : avif_error) (n : List Event)
    (h : init_facts c r n) (hc : clean n) :
    n.filter Event.is_enc_init = [Event.enc_init c 0 false] := by
  obtain ⟨_, err, done, rfl, hd⟩ := h
  have he : err = false := by
    have := hc _ (List.mem_cons_self _ _)
    simpa [Event.failed] using this
  subst he
  have : done.filter Event.is_enc_init = [] := by
    rw [List.filter_eq_nil_iff]
    intro e he
    have := hd e he
    cases e <;> simp_all [Event.is_control, Event.is_enc_init]
  simp [List.filter_cons, Event.is_enc_init, this]

theorem pass_filter (k : aom_codec_cx_pkt_kind) (b : avif_buffer) (r : avif_error)
    (b' : avif_buffer) (n : List Event) (h : pass_facts k b r b' n) :
    n.filter Event.is_enc_init = [] := by
  rw [List.filter_eq_nil_iff]
  intro e he
  simp [(pass_facts_calls k b r b' n h e he).2.2.1]

/-- A run in which an instance initialisation or a control call failed before
any destroy call returns CODEC_INIT_FAILED and leaves the output buffer as it
was. -/
theorem run_init_failure (E : Engine) (cfg : avif_config) (frame : avif_frame)
    (obu : avif_buffer) (run : Run) (h : run_case E cfg frame obu run)
    (hf : ∃ e ∈ run.trace, e.failed = true ∧ (e.is_enc_init = true ∨ e.is_control = true))
    (hnd : ∀ x ∈ run.trace, x.is_destroy = false) :
    run.exit = .returned AVIF_ERROR_CODEC_INIT ∧ run.obu = obu := by
  cases h with
  | default_failed d hd => exact ⟨rfl, rfl⟩
  | init1_failed d r1 n1 hd h1 hr =>
    rcases init_verdict _ r1 n1 h1 with h0 | h0
    · exact absurd h0 hr
    · subst h0; exact ⟨rfl, rfl⟩
  | pass1_failed d n1 r2 st p1 hd h1 h2 hr =>
    exfalso
    obtain ⟨e, he, hfe, hk⟩ := hf
    have hc1 : clean n1 := (verdict_eq_ok_iff n1).1 h1.1.symm
    simp only [List.mem_cons, List.mem_append, List.not_mem_nil, or_false] at he
    rcases he with rfl | he | he | rfl
    · simp [Event.failed] at hfe
    · rw [hc1 e he] at hfe; cases hfe
    · have := pass_facts_calls _ _ _ _ p1 h2 e he
      rcases hk with hk | hk
      · rw [this.2.2.1] at hk; cases hk
      · rw [this.2.2.2] at hk; cases hk
    · simp [Event.failed] at hfe
  | destroy1_failed d n1 st p1 hd h1 h2 =>
    have := hnd (Event.destroy true) (by simp)
    simp [Event.is_destroy] at this
  | init2_failed d n1 st p1 r3 n2 hd h1 h2 h3 hr =>
    have := hnd (Event.destroy false) (by simp)
    simp [Event.is_destroy] at this
  | pass2_failed d n1 st p1 n2 r4 obu' p2 hd h1 h2 h3 h4 hr =>
    have := hnd (Event.destroy false) (by simp)
    simp [Event.is_destroy] at this
  | destroy2_failed d n1 st p1 n2 obu' p2 hd h1 h2 h3 h4 =>
    have := hnd (Event.destroy false) (by simp)
    simp [Event.is_destroy] at this
  | success d n1 st p1 n2 obu' p2 hd h1 h2 h3 h4 =>
    have := hnd (Event.destroy false) (by simp)
    simp [Event.is_destroy] at this

/-- A run in which no call failed initialised the engine twice: with the
first-pass configuration, and with the last-pass configuration carrying the
statistics of pass 1. -/
theorem run_inits (E : Engine) (cfg : avif_config) (frame : avif_frame)
    (obu : avif_buffer) (run : Run) (h : run_case E cfg frame obu run)
    (hc : clean run.trace) :
    run.exit = .returned AVIF_OK ∧
    run.trace.head? =
      some (Event.config_default 0 (E.aom_codec_enc_config_default [] 0).1 false) ∧
    run.trace.filter Event.is_enc_init =
      [Event.enc_init (first_pass_cfg (E.aom_codec_enc_config_default [] 0).1 cfg frame) 0 false,
       Event.enc_init (last_pass_cfg (E.aom_codec_enc_config_default [] 0).1 cfg frame
          ⟨(payloads .AOM_CODEC_STATS_PKT (pass1_events run.trace)).flatten,
           ((payloads .AOM_CODEC_STATS_PKT (pass1_events run.trace)).map List.length).sum⟩)
          0 false] := by
  have hv := run_verdict E cfg frame obu run h
  rw [(verdict_eq_ok_iff _).2 hc] at hv
  cases h with
  | default_failed d hd => simp [AVIF_OK, AVIF_ERROR_CODEC_INIT] at hv
  | init1_failed d r1 n1 hd h1 hr =>
    simp only [Exit.returned.injEq] at hv
    exact absurd hv hr
  | pass1_failed d n1 r2 st p1 hd h1 h2 hr =>
    simp only [Exit.returned.injEq] at hv
    exact absurd hv hr
  | destroy1_failed d n1 st p1 hd h1 h2 => simp [AVIF_OK, AVIF_ERROR_CODEC_DESTROY] at hv
  | init2_failed d n1 st p1 r3 n2 hd h1 h2 h3 hr =>
    simp only [Exit.returned.injEq] at hv
    exact absurd hv hr
  | pass2_failed d n1 st p1 n2 r4 obu' p2 hd h1 h2 h3 h4 hr =>
    simp only [Exit.returned.injEq] at hv
    exact absurd hv hr
  | destroy2_failed d n1 st p1 n2 obu' p2 hd h1 h2 h3 h4 =>
    simp [AVIF_OK, AVIF_ERROR_CODEC_DESTROY] at hv
  | success d n1 st p1 n2 obu' p2 hd h1 h2 h3 h4 =>
    refine ⟨rfl, by rw [hd]; rfl, ?_⟩
    simp only at hc ⊢
    have hc1 : clean n1 := (verdict_eq_ok_iff n1).1 h1.1.symm
    have hc3 : clean n2 := (verdict_eq_ok_iff n2).1 h3.1.symm
    have hst := stats_after_pass1 d _ _ _ n1 p1 st h1 h2
    have hp : pass1_events (Event.config_default 0 d false ::
        (n1 ++ (p1 ++ (Event.destroy false ::
          (n2 ++ (p2 ++ (Event.destroy false :: [Event.free st.buf]))))))) =
        Event.config_default 0 d false :: (n1 ++ p1) := by
      have := pass1_events_destroy (Event.config_default 0 d false :: (n1 ++ p1))
        (n2 ++ (p2 ++ (Event.destroy false :: [Event.free st.buf]))) false
        (no_destroy_upto_pass1 d _ _ _ n1 p1 st _ _ h1 h2)
      simpa using this
    rw [hp, ← hst.1, ← hst.2, hd]
    simp [List.filter_cons, List.filter_append, Event.is_enc_init,
      init_filter _ _ n1 h1 hc1, init_filter _ _ n2 h3 hc3,
      pass_filter _ _ _ _ p1 h2, pass_filter _ _ _ _ p2 h4]

/-! ## The sample engines hand out finitely many packets -/

theorem pass_engine_quiet : pass_engine.quiet_after 6 := by
  intro h hl
  simp only [pass_engine]
  rw [if_neg (by omega), if_neg (by omega), if_neg (by omega)]

theorem demo_engine_never_fails : demo_engine.never_fails :=
  ⟨fun _ _ => rfl, fun _ _ _ => rfl, fun _ _ _ => rfl, fun _ _ _ _ _ => rfl, fun _ => rfl⟩

theorem demo_engine_quiet : demo_engine.quiet_after 33 := by
  intro h hl
  simp only [demo_engine]
  rw [if_neg (by omega), if_neg (by omega), if_neg (by omega), if_neg (by omega),
    if_neg (by omega), if_neg (by omega)]

/-! ## The claims -/

/-- C1: whatever the output buffer `B` held and however the engine behaves,
a finished `do_pass2` made the calls `new`, each recorded with the engine's
answer, and leaves in the output buffer the bytes of `B` followed by the
payloads of the compressed-frame packets the engine delivered during the
pass, in the order of delivery; its size is the size of `B` plus the sum of
the lengths of these payloads; packets of other kinds add nothing.  If no call
failed, the pass returned OK, began with the feed of the frame and ended with
a flush feed whose drain delivered no packet.  An engine that stops handing
out packets lets the pass finish. -/
theorem do_pass2_output (E : Engine) (tr : List Event) (frame : aom_image_t)
    (B : avif_buffer) :
    (∀ fuel res obu tr', do_pass2 E fuel tr frame B = some (res, obu, tr') →
      ∃ new : List Event, tr' = tr ++ new ∧ faithful E tr new ∧
        obu.buf = B.buf ++ (payloads .AOM_CODEC_CX_FRAME_PKT new).flatten ∧
        obu.sz = B.sz + ((payloads .AOM_CODEC_CX_FRAME_PKT new).map List.length).sum ∧
        (clean new → res = AVIF_OK ∧
          ∃ pre, new = Event.encode (some frame) 1 1 0 false ::
            (pre ++ [Event.encode none 1 1 0 false, Event.get_cx_data none]))) ∧
    (∀ N fuel, E.quiet_after N → N < fuel →
      (do_pass2 E fuel tr frame B).isSome = true) := by
  constructor
  · intro fuel res obu tr' h
    rw [do_pass2_eq] at h
    obtain ⟨new, rfl, hb, hs, hc⟩ := pass_buffer E _ fuel tr frame B res obu tr' h
    exact ⟨new, rfl, pass_faithful E _ fuel tr frame B res obu new h, hb, hs, hc⟩
  · intro N fuel hq hf
    rw [do_pass2_eq]
    exact pass_total E _ N hq fuel hf tr frame B

/-- C1 at `pass_engine`: from the buffer `[0]`, `do_pass2` ends with
`[0, 5, 6, 7]`, the statistics packet `[1]` adding nothing. -/
theorem do_pass2_output_witness :
    (do_pass2 pass_engine 7 [] demo_image ⟨[0], 1⟩ =
        some (0, ⟨[0, 5, 6, 7], 4⟩, pass_engine_trace) ∧
      ∃ new : List Event, pass_engine_trace = [] ++ new ∧ faithful pass_engine [] new ∧
        [0, 5, 6, 7] = [0] ++ (payloads .AOM_CODEC_CX_FRAME_PKT new).flatten ∧
        4 = 1 + ((payloads .AOM_CODEC_CX_FRAME_PKT new).map List.length).sum ∧
        (clean new → (0 : avif_error) = AVIF_OK ∧
          ∃ pre, new = Event.encode (some demo_image) 1 1 0 false ::
            (pre ++ [Event.encode none 1 1 0 false, Event.get_cx_data none]))) ∧
    (pass_engine.quiet_after 6 ∧
      (do_pass2 pass_engine 7 [] demo_image ⟨[0], 1⟩).isSome = true) :=
  ⟨⟨by decide,
    (do_pass2_output pass_engine [] demo_image ⟨[0], 1⟩).1 7 0 ⟨[0, 5, 6, 7], 4⟩
      pass_engine_trace (by decide)⟩,
   pass_engine_quiet,
   (do_pass2_output pass_engine [] demo_image ⟨[0], 1⟩).2 6 7 pass_engine_quiet (by decide)⟩

/-- C2: for a 4:2:0 frame with width and height in 1..65535, `convert_frame`
sets the U and V strides to ceil(width/2), the Y stride to width, both chroma
shifts to 1, and places the V plane ceil(width/2) * ceil(height/2) bytes after
the U plane (its `c_sz`), a value below `INT_MAX`: nothing wraps, and odd
dimensions round up. -/
theorem convert_frame_chroma (frame : avif_frame)
    (hs : frame.subsampling = AVIF_SUBSAMPLING_I420)
    (hw : 1 ≤ frame.width ∧ frame.width ≤ 65535)
    (hh : 1 ≤ frame.height ∧ frame.height ≤ 65535) :
    ∃ img : aom_image_t, convert_frame frame = some img ∧
      img.stride_u = (⌈(frame.width : ℚ) / 2⌉₊ : Int) ∧
      img.stride_v = (⌈(frame.width : ℚ) / 2⌉₊ : Int) ∧
      img.stride_y = (frame.width : Int) ∧
      img.x_chroma_shift = 1 ∧ img.y_chroma_shift = 1 ∧
      img.planes_v.off - img.planes_u.off =
        (⌈(frame.width : ℚ) / 2⌉₊ : Int) * (⌈(frame.height : ℚ) / 2⌉₊ : Int) ∧
      (⌈(frame.width : ℚ) / 2⌉₊ : Int) * (⌈(frame.height : ℚ) / 2⌉₊ : Int) ≤ INT_MAX := by
  obtain ⟨w, h, s, d⟩ := frame
  simp only at hs hw hh
  subst hs
  rw [ceil_half, ceil_half]
  have ha : (w + 1) / 2 ≤ 32768 := by omega
  have hb : (h + 1) / 2 ≤ 32768 := by omega
  have hab : (w + 1) / 2 * ((h + 1) / 2) ≤ 32768 * 32768 := Nat.mul_le_mul ha hb
  have habz : (((w + 1) / 2 : ℕ) : Int) * (((h + 1) / 2 : ℕ) : Int) ≤ 1073741824 := by
    exact_mod_cast hab
  have hab0 : 0 ≤ (((w + 1) / 2 : ℕ) : Int) * (((h + 1) / 2 : ℕ) : Int) := by positivity
  have hcw : Int.tdiv (wrap32 (wrap32 ((w : Int) + 2) - 1)) 2 = (((w + 1) / 2 : ℕ) : Int) := by
    rw [wrap32_of_range ((w : Int) + 2) (by omega) (by omega),
      wrap32_of_range _ (by omega) (by omega)]
    have : (w : Int) + 2 - 1 = ((w + 1 : ℕ) : Int) := by push_cast; ring
    rw [this, tdiv_two_of_nat]
  have hch : Int.tdiv (wrap32 (wrap32 ((h : Int) + 2) - 1)) 2 = (((h + 1) / 2 : ℕ) : Int) := by
    rw [wrap32_of_range ((h : Int) + 2) (by omega) (by omega),
      wrap32_of_range _ (by omega) (by omega)]
    have : (h : Int) + 2 - 1 = ((h + 1 : ℕ) : Int) := by push_cast; ring
    rw [this, tdiv_two_of_nat]
  simp only [convert_frame, convert_subsampling, if_true, Option.some.injEq, exists_eq_left']
  simp only [hcw, hch, mul_one]
  rw [wrap32_of_range (((w + 1) / 2 : ℕ) : Int) (by omega) (by omega),
    wrap32_of_range (w : Int) (by omega) (by omega),
    wrap32_of_range ((((w + 1) / 2 : ℕ) : Int) * (((h + 1) / 2 : ℕ) : Int)) (by omega) (by omega)]
  refine ⟨rfl, rfl, rfl, by decide, by decide, by ring, ?_⟩
  unfold INT_MAX
  omega

/-- C2 at the 17 x 15 frame: chroma strides 9 = ceil(17/2). -/
theorem convert_frame_chroma_witness :
    (demo_frame.subsampling = AVIF_SUBSAMPLING_I420 ∧
      (1 ≤ demo_frame.width ∧ demo_frame.width ≤ 65535) ∧
      (1 ≤ demo_frame.height ∧ demo_frame.height ≤ 65535)) ∧
    ∃ img : aom_image_t, convert_frame demo_frame = some img ∧
      img.stride_u = (⌈(demo_frame.width : ℚ) / 2⌉₊ : Int) ∧
      img.stride_v = (⌈(demo_frame.width : ℚ) / 2⌉₊ : Int) ∧
      img.stride_y = (demo_frame.width : Int) ∧
      img.x_chroma_shift = 1 ∧ img.y_chroma_shift = 1 ∧
      img.planes_v.off - img.planes_u.off =
        (⌈(demo_frame.width : ℚ) / 2⌉₊ : Int) * (⌈(demo_frame.height : ℚ) / 2⌉₊ : Int) ∧
      (⌈(demo_frame.width : ℚ) / 2⌉₊ : Int) * (⌈(demo_frame.height : ℚ) / 2⌉₊ : Int) ≤
        INT_MAX :=
  ⟨⟨rfl, by decide, by decide⟩,
   convert_frame_chroma demo_frame rfl (by decide) (by decide)⟩

/-- C3 (the code at the failing input): for a 65535 x 65535 frame the product
width * height = 4294836225 does not fit the `int` variable `pic_sz`; reduced
to 32 bits it is -131071, so the U plane pointer `data + pic_sz` lies before
the start of the input buffer and is not `data + width * height`. -/
theorem convert_frame_pic_sz_wraps (data : List uint8_t) :
    ∃ img : aom_image_t,
      convert_frame ⟨65535, 65535, AVIF_SUBSAMPLING_I420, data⟩ = some img ∧
      img.planes_u = ⟨data, -131071⟩ ∧
      (-131071 : Int) ≠ 65535 * 65535 ∧ (INT_MAX : Int) < 65535 * 65535 := by
  simp only [convert_frame, convert_subsampling, if_true, Option.some.injEq, exists_eq_left']
  norm_num [wrap32, INT_MAX]

/-- Where `width * height` fits an `int`, the plane offsets are those of the
packed layout: Y at 0, U at width * height, V a chroma plane further. -/
theorem convert_frame_offsets_in_range (frame : avif_frame)
    (hs : frame.subsampling = AVIF_SUBSAMPLING_I420)
    (hw : frame.width ≤ 65535) (hh : frame.height ≤ 65535)
    (hfit : (frame.width : Int) * frame.height ≤ INT_MAX) :
    ∃ img : aom_image_t, convert_frame frame = some img ∧
      img.planes_y.off = 0 ∧ img.planes_u.off = (frame.width : Int) * frame.height ∧
      img.planes_v.off = (frame.width : Int) * frame.height +
        (((frame.width + 1) / 2 : ℕ) : Int) * (((frame.height + 1) / 2 : ℕ) : Int) := by
  obtain ⟨w, h, s, d⟩ := frame
  simp only at hs hw hh hfit
  subst hs
  unfold INT_MAX at hfit
  have ha : (w + 1) / 2 ≤ 32768 := by omega
  have hb : (h + 1) / 2 ≤ 32768 := by omega
  have hab : (w + 1) / 2 * ((h + 1) / 2) ≤ 32768 * 32768 := Nat.mul_le_mul ha hb
  have habz : (((w + 1) / 2 : ℕ) : Int) * (((h + 1) / 2 : ℕ) : Int) ≤ 1073741824 := by
    exact_mod_cast hab
  have hab0 : 0 ≤ (((w + 1) / 2 : ℕ) : Int) * (((h + 1) / 2 : ℕ) : Int) := by positivity
  have hwh0 : 0 ≤ (w : Int) * h := by positivity
  have hcw : Int.tdiv (wrap32 (wrap32 ((w : Int) + 2) - 1)) 2 = (((w + 1) / 2 : ℕ) : Int) := by
    rw [wrap32_of_range ((w : Int) + 2) (by omega) (by omega),
      wrap32_of_range _ (by omega) (by omega)]
    have : (w : Int) + 2 - 1 = ((w + 1 : ℕ) : Int) := by push_cast; ring
    rw [this, tdiv_two_of_nat]
  have hch : Int.tdiv (wrap32 (wrap32 ((h : Int) + 2) - 1)) 2 = (((h + 1) / 2 : ℕ) : Int) := by
    rw [wrap32_of_range ((h : Int) + 2) (by omega) (by omega),
      wrap32_of_range _ (by omega) (by omega)]
    have : (h : Int) + 2 - 1 = ((h + 1 : ℕ) : Int) := by push_cast; ring
    rw [this, tdiv_two_of_nat]
  simp only [convert_frame, convert_subsampling, if_true, Option.some.injEq, exists_eq_left']
  simp only [hcw, hch, mul_one]
  rw [wrap32_of_range (((w + 1) / 2 : ℕ) : Int) (by omega) (by omega),
    wrap32_of_range ((w : Int) * h) (by omega) (by omega),
    wrap32_of_range ((w : Int) * h) (by omega) (by omega),
    wrap32_of_range ((((w + 1) / 2 : ℕ) : Int) * (((h + 1) / 2 : ℕ) : Int)) (by omega) (by omega)]
  exact ⟨trivial, rfl, rfl⟩

/-- C4: when the engine initialisation and every control call that
`init_codec` makes succeed, `init_codec` returns OK and the calls it made are
exactly: the instance init, effort = speed, quantizer = quality, lossless = 1
if and only if quality is 0, tile columns = 1, tile rows = 1, row
multithreading = 1, frame-parallel decoding = 0, in this order; the lossless
override is requested once when quality is 0 and not at all otherwise; each
call is recorded with the engine's answer. -/
theorem init_codec_control_sequence (E : Engine) (tr : List Event)
    (aom_cfg : aom_codec_enc_cfg_t) (cfg : avif_config)
    (hok : clean ((init_codec E tr aom_cfg cfg).2.drop tr.length)) :
    init_codec E tr aom_cfg cfg =
      (AVIF_OK,
        tr ++ ([Event.enc_init aom_cfg 0 false,
                Event.control .AOME_SET_CPUUSED cfg.speed false,
                Event.control .AOME_SET_CQ_LEVEL cfg.quality false] ++
               (if cfg.quality = 0 then [Event.control .AV1E_SET_LOSSLESS 1 false] else []) ++
               [Event.control .AV1E_SET_TILE_COLUMNS 1 false,
                Event.control .AV1E_SET_TILE_ROWS 1 false,
                Event.control .AV1E_SET_ROW_MT 1 false,
                Event.control .AV1E_SET_FRAME_PARALLEL_DECODING 0 false])) ∧
    ((init_codec E tr aom_cfg cfg).2.drop tr.length).countP Event.is_lossless =
      (if cfg.quality = 0 then 1 else 0) ∧
    faithful E tr ((init_codec E tr aom_cfg cfg).2.drop tr.length) := by
  obtain ⟨err, done, h1, h2, _, h5⟩ := init_codec_post E tr aom_cfg cfg
  rw [h1, List.drop_left] at hok
  obtain ⟨rfl, rfl⟩ := h5 hok
  rw [verdict_of_clean _ hok] at h2
  have key : init_codec E tr aom_cfg cfg =
      (AVIF_OK, tr ++ Event.enc_init aom_cfg 0 false :: ctl_events (expected_controls cfg)) :=
    Prod.ext h2 h1
  have hfa := init_codec_faithful E tr aom_cfg cfg _ _ key
  rw [key]
  refine ⟨?_, ?_, ?_⟩
  · by_cases hq : cfg.quality = 0 <;> simp [hq, expected_controls, ctl_events]
  · by_cases hq : cfg.quality = 0 <;>
      simp [hq, expected_controls, ctl_events, Event.is_lossless, List.countP_cons]
  · simpa using hfa

/-- C4 at `demo_engine` and the lossless `demo_cfg`: eight calls, among them
one lossless request. -/
theorem init_codec_control_sequence_witness :
    clean ((init_codec demo_engine [] demo_first_cfg demo_cfg).2.drop
      ([] : List Event).length) ∧
    (init_codec demo_engine [] demo_first_cfg demo_cfg =
      (AVIF_OK,
        [] ++ ([Event.enc_init demo_first_cfg 0 false,
                Event.control .AOME_SET_CPUUSED demo_cfg.speed false,
                Event.control .AOME_SET_CQ_LEVEL demo_cfg.quality false] ++
               (if demo_cfg.quality = 0 then [Event.control .AV1E_SET_LOSSLESS 1 false]
                else []) ++
               [Event.control .AV1E_SET_TILE_COLUMNS 1 false,
                Event.control .AV1E_SET_TILE_ROWS 1 false,
                Event.control .AV1E_SET_ROW_MT 1 false,
                Event.control .AV1E_SET_FRAME_PARALLEL_DECODING 0 false])) ∧
     ((init_codec demo_engine [] demo_first_cfg demo_cfg).2.drop
        ([] : List Event).length).countP Event.is_lossless =
       (if demo_cfg.quality = 0 then 1 else 0) ∧
     faithful demo_engine [] ((init_codec demo_engine [] demo_first_cfg demo_cfg).2.drop
        ([] : List Event).length)) :=
  ⟨by decide, init_codec_control_sequence demo_engine [] demo_first_cfg demo_cfg (by decide)⟩

/-- C5 (the code at the failing input): with an engine whose instance
initialisation succeeds and whose first control call fails,
`avif_encode_frame` returns CODEC_INIT_FAILED after these four calls: the
instance was initialised and no destroy call was made. -/
theorem codec_not_destroyed_after_control_failure :
    avif_encode_frame control_fail_engine 1 demo_cfg demo_frame ⟨[], 0⟩ =
      some ⟨.returned AVIF_ERROR_CODEC_INIT, ⟨[], 0⟩, control_fail_trace⟩ ∧
    Event.enc_init demo_first_cfg 0 false ∈ control_fail_trace ∧
    ∀ e ∈ control_fail_trace, e.is_destroy = false := by
  decide

/-- C6: for a valid input and any engine, a returning `avif_encode_frame`
has recorded each call with the engine's answer and
returns OK if and only if no engine call failed, and otherwise the code of the
first call that failed (CODEC_INIT_FAILED for default-config generation,
instance init and control setting, FRAME_ENCODE_FAILED for a feed,
CODEC_DESTROY_FAILED for a destroy); it returns neither GENERAL nor a positive
value.  An engine that stops handing out packets lets the call return. -/
theorem avif_encode_frame_result (E : Engine) (cfg : avif_config) (frame : avif_frame)
    (obu : avif_buffer) (hv : valid_input cfg frame) :
    (∀ fuel run, avif_encode_frame E fuel cfg frame obu = some run →
      faithful E [] run.trace ∧
      ∃ res : avif_error, run.exit = .returned res ∧
        (res = AVIF_OK ↔ clean run.trace) ∧
        (res ≠ AVIF_OK → ∃ e, run.trace.find? Event.failed = some e ∧ res = e.code) ∧
        res ≠ AVIF_ERROR_GENERAL ∧ ¬ (0 < res)) ∧
    (∀ N fuel, E.quiet_after N → N < fuel →
      ∃ run, avif_encode_frame E fuel cfg frame obu = some run) := by
  constructor
  · intro fuel run h
    have hc := run_case_of_valid E fuel cfg frame obu run hv h
    refine ⟨avif_encode_frame_faithful E fuel cfg frame obu run h,
      verdict run.trace, run_verdict E cfg frame obu run hc, verdict_eq_ok_iff _,
      verdict_find _, ?_, ?_⟩
    · rcases verdict_mem run.trace with h | h | h | h <;> rw [h] <;> decide
    · rcases verdict_mem run.trace with h | h | h | h <;> rw [h] <;> decide
  · intro N fuel hq hf
    exact Option.isSome_iff_exists.1 (avif_encode_frame_total E N fuel cfg frame obu hq hf)

/-- C6 at `control_fail_engine`: the first failing call is a control call, the
result is CODEC_INIT_FAILED. -/
theorem avif_encode_frame_result_witness :
    valid_input demo_cfg demo_frame ∧
    avif_encode_frame control_fail_engine 1 demo_cfg demo_frame ⟨[], 0⟩ =
      some ⟨.returned AVIF_ERROR_CODEC_INIT, ⟨[], 0⟩, control_fail_trace⟩ ∧
    faithful control_fail_engine [] control_fail_trace ∧
    ∃ res : avif_error, Exit.returned AVIF_ERROR_CODEC_INIT = .returned res ∧
      (res = AVIF_OK ↔ clean control_fail_trace) ∧
      (res ≠ AVIF_OK →
        ∃ e, control_fail_trace.find? Event.failed = some e ∧ res = e.code) ∧
      res ≠ AVIF_ERROR_GENERAL ∧ ¬ (0 < res) :=
  ⟨by decide, by decide,
   (avif_encode_frame_result control_fail_engine demo_cfg demo_frame ⟨[], 0⟩ (by decide)).1 1
     ⟨.returned AVIF_ERROR_CODEC_INIT, ⟨[], 0⟩, control_fail_trace⟩ (by decide)⟩

/-- C7: for a valid input and any engine, a returning `avif_encode_frame`
has recorded each call with the engine's answer and
releases the statistics buffer exactly once, as its last call, and the block
released holds the statistics payloads delivered in pass 1 (none, when none
were delivered); if an instance initialisation or control call failed before
any destroy call, that is in the initialisation of pass 1, the result is
CODEC_INIT_FAILED and the output buffer is unchanged.  An engine that stops
handing out packets lets the call return. -/
theorem avif_encode_frame_frees_stats (E : Engine) (cfg : avif_config) (frame : avif_frame)
    (obu : avif_buffer) (hv : valid_input cfg frame) :
    (∀ fuel run, avif_encode_frame E fuel cfg frame obu = some run →
      faithful E [] run.trace ∧
      (∃ body : List Event,
        run.trace = body ++
          [Event.free (payloads .AOM_CODEC_STATS_PKT (pass1_events body)).flatten] ∧
        ∀ e ∈ body, e.is_free = false) ∧
      ((∃ e ∈ run.trace, e.failed = true ∧ (e.is_enc_init = true ∨ e.is_control = true)) →
        (∀ x ∈ run.trace, x.is_destroy = false) →
        run.exit = .returned AVIF_ERROR_CODEC_INIT ∧ run.obu = obu)) ∧
    (∀ N fuel, E.quiet_after N → N < fuel →
      ∃ run, avif_encode_frame E fuel cfg frame obu = some run) := by
  constructor
  · intro fuel run h
    have hc := run_case_of_valid E fuel cfg frame obu run hv h
    exact ⟨avif_encode_frame_faithful E fuel cfg frame obu run h,
      run_free E cfg frame obu run hc, run_init_failure E cfg frame obu run hc⟩
  · intro N fuel hq hf
    exact Option.isSome_iff_exists.1 (avif_encode_frame_total E N fuel cfg frame obu hq hf)

/-- C7 at `init_fail_engine`: the initialisation of pass 1 fails; the empty
statistics buffer is released once, as the last call; the result is
CODEC_INIT_FAILED and the output buffer `[8]` is unchanged. -/
theorem avif_encode_frame_frees_stats_witness :
    valid_input demo_cfg demo_frame ∧
    avif_encode_frame init_fail_engine 1 demo_cfg demo_frame ⟨[8], 1⟩ =
      some ⟨.returned AVIF_ERROR_CODEC_INIT, ⟨[8], 1⟩, init_fail_trace⟩ ∧
    ((∃ e ∈ init_fail_trace,
        e.failed = true ∧ (e.is_enc_init = true ∨ e.is_control = true)) ∧
      ∀ x ∈ init_fail_trace, x.is_destroy = false) ∧
    (faithful init_fail_engine [] init_fail_trace ∧
     (∃ body : List Event,
        init_fail_trace = body ++
          [Event.free (payloads .AOM_CODEC_STATS_PKT (pass1_events body)).flatten] ∧
        ∀ e ∈ body, e.is_free = false) ∧
      ((∃ e ∈ init_fail_trace,
          e.failed = true ∧ (e.is_enc_init = true ∨ e.is_control = true)) →
        (∀ x ∈ init_fail_trace, x.is_destroy = false) →
        Exit.returned AVIF_ERROR_CODEC_INIT = .returned AVIF_ERROR_CODEC_INIT ∧
          (⟨[8], 1⟩ : avif_buffer) = ⟨[8], 1⟩)) :=
  ⟨by decide, by decide, by decide,
   (avif_encode_frame_frees_stats init_fail_engine demo_cfg demo_frame ⟨[8], 1⟩
      (by decide)).1 1
     ⟨.returned AVIF_ERROR_CODEC_INIT, ⟨[8], 1⟩, init_fail_trace⟩ (by decide)⟩

/-- C8: `avif_encode_frame` ends in a failed assertion if and only if
threads < 1, or speed is outside [0,8], or quality is outside [0,63], or the
width is 0, or the height is 0, or the subsampling is not 4:2:0; it has then
made no library call.  Otherwise no assertion fires, a finished call returns
one of OK, CODEC_INIT_FAILED, CODEC_DESTROY_FAILED, FRAME_ENCODE_FAILED, and
an engine that stops handing out packets lets the call finish. -/
theorem avif_encode_frame_abort_iff (E : Engine) (fuel : Nat) (cfg : avif_config)
    (frame : avif_frame) (obu : avif_buffer) :
    ((∃ run, avif_encode_frame E fuel cfg frame obu = some run ∧ run.exit = .aborted) ↔
      (cfg.threads < 1 ∨ cfg.speed < 0 ∨ 8 < cfg.speed ∨ cfg.quality < 0 ∨ 63 < cfg.quality ∨
        frame.width = 0 ∨ frame.height = 0 ∨ frame.subsampling ≠ AVIF_SUBSAMPLING_I420)) ∧
    (∀ run, avif_encode_frame E fuel cfg frame obu = some run → run.exit = .aborted →
      run.trace = []) ∧
    (¬ (cfg.threads < 1 ∨ cfg.speed < 0 ∨ 8 < cfg.speed ∨ cfg.quality < 0 ∨ 63 < cfg.quality ∨
        frame.width = 0 ∨ frame.height = 0 ∨ frame.subsampling ≠ AVIF_SUBSAMPLING_I420) →
      (∀ run, avif_encode_frame E fuel cfg frame obu = some run →
        ∃ res : avif_error, run.exit = .returned res ∧
          (res = AVIF_OK ∨ res = AVIF_ERROR_CODEC_INIT ∨ res = AVIF_ERROR_CODEC_DESTROY ∨
            res = AVIF_ERROR_FRAME_ENCODE)) ∧
      (∀ N, E.quiet_after N → N < fuel →
        ∃ run res, avif_encode_frame E fuel cfg frame obu = some run ∧
          run.exit = .returned res)) := by
  have hiff : valid_input cfg frame ↔
      ¬ (cfg.threads < 1 ∨ cfg.speed < 0 ∨ 8 < cfg.speed ∨ cfg.quality < 0 ∨ 63 < cfg.quality ∨
        frame.width = 0 ∨ frame.height = 0 ∨ frame.subsampling ≠ AVIF_SUBSAMPLING_I420) := by
    unfold valid_input
    constructor
    · rintro ⟨h1, ⟨h2, h3⟩, ⟨h4, h5⟩, h6, h7, h8⟩
      simp only [not_or, not_lt, ne_eq, not_not]
      exact ⟨h1, h2, h3, h4, h5, by omega, by omega, h8⟩
    · intro h
      simp only [not_or, not_lt, ne_eq, not_not] at h
      obtain ⟨h1, h2, h3, h4, h5, h6, h7, h8⟩ := h
      exact ⟨h1, ⟨h2, h3⟩, ⟨h4, h5⟩, by omega, by omega, h8⟩
  have hret : valid_input cfg frame → ∀ run,
      avif_encode_frame E fuel cfg frame obu = some run →
      run.exit = .returned (verdict run.trace) := fun hv run h =>
    run_verdict E cfg frame obu run (run_case_of_valid E fuel cfg frame obu run hv h)
  refine ⟨⟨?_, ?_⟩, ?_, ?_⟩
  · rintro ⟨run, h, ha⟩
    by_contra hn
    have := hret (hiff.2 hn) run h
    rw [ha] at this
    cases this
  · intro hinv
    exact ⟨_, abort_of_invalid E fuel cfg frame obu (fun hv => hiff.1 hv hinv), rfl⟩
  · intro run h ha
    by_cases hv : valid_input cfg frame
    · have := hret hv run h
      rw [ha] at this
      cases this
    · rw [abort_of_invalid E fuel cfg frame obu hv] at h
      cases h
      rfl
  · intro hn
    have hv := hiff.2 hn
    refine ⟨fun run h => ⟨_, hret hv run h, verdict_mem _⟩, ?_⟩
    intro N hq hf
    obtain ⟨run, h⟩ :=
      Option.isSome_iff_exists.1 (avif_encode_frame_total E N fuel cfg frame obu hq hf)
    exact ⟨run, _, h, hret hv run h⟩

/-- C8 at a frame of width 0, which aborts, and at `demo_frame`, which
returns. -/
theorem avif_encode_frame_abort_iff_witness :
    (∃ run, avif_encode_frame demo_engine 34 demo_cfg { demo_frame with width := 0 }
        ⟨[], 0⟩ = some run ∧ run.exit = .aborted) ∧
    (∃ run res, avif_encode_frame demo_engine 34 demo_cfg demo_frame ⟨[], 0⟩ = some run ∧
        run.exit = .returned res) :=
  ⟨(avif_encode_frame_abort_iff demo_engine 34 demo_cfg { demo_frame with width := 0 }
      ⟨[], 0⟩).1.2 (by decide),
   ((avif_encode_frame_abort_iff demo_engine 34 demo_cfg demo_frame ⟨[], 0⟩).2.2
      (by decide)).2 33 demo_engine_quiet (by decide)⟩

/-- C9: in a run of `avif_encode_frame` in which every engine call succeeds,
each call is recorded with the engine's answer and
the engine is initialised exactly twice: first with the engine's default
configuration `d` overridden by frame limit 1, the frame's width and height,
timebase 1/24, constant-quality rate control, thread count `cfg.threads` and
pass FIRST; then with the same configuration except pass LAST and, as two-pass
statistics input, the concatenation in delivery order of the statistics
packets delivered in pass 1, with its length as size.  An engine that stops
handing out packets lets the call return, and if none of its calls ever fails
the run it returns is such a run. -/
theorem avif_encode_frame_two_inits (E : Engine) (cfg : avif_config)
    (frame : avif_frame) (obu : avif_buffer)
    (hv : valid_input cfg frame) (hwf : cfg.wf) :
    (∀ fuel run, avif_encode_frame E fuel cfg frame obu = some run → clean run.trace →
      ∃ d : aom_codec_enc_cfg_t,
        faithful E [] run.trace ∧
        run.exit = .returned AVIF_OK ∧
        run.trace.head? = some (Event.config_default 0 d false) ∧
        ((cfg.threads.toNat : Nat) : Int) = cfg.threads ∧
        run.trace.filter Event.is_enc_init =
          [Event.enc_init
            { d with
              g_limit := 1, g_w := frame.width, g_h := frame.height,
              g_timebase_num := 1, g_timebase_den := 24,
              rc_end_usage := .AOM_Q, g_threads := cfg.threads.toNat,
              g_pass := .AOM_RC_FIRST_PASS } 0 false,
           Event.enc_init
            { d with
              g_limit := 1, g_w := frame.width, g_h := frame.height,
              g_timebase_num := 1, g_timebase_den := 24,
              rc_end_usage := .AOM_Q, g_threads := cfg.threads.toNat,
              g_pass := .AOM_RC_LAST_PASS,
              rc_twopass_stats_in :=
                ⟨(payloads .AOM_CODEC_STATS_PKT (pass1_events run.trace)).flatten,
                 ((payloads .AOM_CODEC_STATS_PKT (pass1_events run.trace)).map
                    List.length).sum⟩ } 0 false]) ∧
    (∀ N fuel, E.quiet_after N → N < fuel →
      ∃ run, avif_encode_frame E fuel cfg frame obu = some run ∧
        (E.never_fails → clean run.trace)) := by
  constructor
  · intro fuel run h hc
    have hcase := run_case_of_valid E fuel cfg frame obu run hv h
    obtain ⟨hex, hhead, hf⟩ := run_inits E cfg frame obu run hcase hc
    have ht : to_unsigned cfg.threads = cfg.threads.toNat :=
      to_unsigned_of_nonneg _ (by have := hv.1; omega) hwf.1.2
    refine ⟨(E.aom_codec_enc_config_default [] 0).1,
      avif_encode_frame_faithful E fuel cfg frame obu run h, hex, hhead, ?_, ?_⟩
    · exact Int.toNat_of_nonneg (by have := hv.1; omega)
    · rw [hf]
      simp only [first_pass_cfg, last_pass_cfg, ht]
  · intro N fuel hq hf
    obtain ⟨run, h⟩ :=
      Option.isSome_iff_exists.1 (avif_encode_frame_total E N fuel cfg frame obu hq hf)
    exact ⟨run, h, fun hn =>
      clean_of_faithful E [] run.trace hn (avif_encode_frame_faithful E fuel cfg frame obu run h)⟩

/-- C9 at `demo_engine`: with the lossless `demo_cfg`, two initialisations,
the second with the pass-1 statistics `[1, 2, 3]`; with quality 32 the call
returns as well, with no failed call. -/
theorem avif_encode_frame_two_inits_witness :
    (valid_input demo_cfg demo_frame ∧ demo_cfg.wf ∧
      avif_encode_frame demo_engine 34 demo_cfg demo_frame ⟨[], 0⟩ =
        some ⟨.returned 0, ⟨[5, 6, 7], 3⟩, demo_trace⟩ ∧
      clean demo_trace ∧ demo_engine.quiet_after 33 ∧ demo_engine.never_fails) ∧
    demo_trace.filter Event.is_enc_init =
      [Event.enc_init demo_first_cfg 0 false, Event.enc_init demo_last_cfg 0 false] ∧
    (∃ d : aom_codec_enc_cfg_t,
      faithful demo_engine [] demo_trace ∧
      Exit.returned 0 = .returned AVIF_OK ∧
      demo_trace.head? = some (Event.config_default 0 d false) ∧
      ((demo_cfg.threads.toNat : Nat) : Int) = demo_cfg.threads ∧
      demo_trace.filter Event.is_enc_init =
        [Event.enc_init
          { d with
            g_limit := 1, g_w := demo_frame.width, g_h := demo_frame.height,
            g_timebase_num := 1, g_timebase_den := 24,
            rc_end_usage := .AOM_Q, g_threads := demo_cfg.threads.toNat,
            g_pass := .AOM_RC_FIRST_PASS } 0 false,
         Event.enc_init
          { d with
            g_limit := 1, g_w := demo_frame.width, g_h := demo_frame.height,
            g_timebase_num := 1, g_timebase_den := 24,
            rc_end_usage := .AOM_Q, g_threads := demo_cfg.threads.toNat,
            g_pass := .AOM_RC_LAST_PASS,
            rc_twopass_stats_in :=
              ⟨(payloads .AOM_CODEC_STATS_PKT (pass1_events demo_trace)).flatten,
               ((payloads .AOM_CODEC_STATS_PKT (pass1_events demo_trace)).map
                  List.length).sum⟩ } 0 false]) ∧
    (∃ run, avif_encode_frame demo_engine 34 demo_cfg demo_frame ⟨[], 0⟩ = some run ∧
      (demo_engine.never_fails → clean run.trace)) ∧
    (∃ run, avif_encode_frame demo_engine 34 { demo_cfg with quality := 32 } demo_frame
        ⟨[], 0⟩ = some run ∧
      (demo_engine.never_fails → clean run.trace)) :=
  ⟨⟨by decide, by decide, by decide, by decide, demo_engine_quiet, demo_engine_never_fails⟩,
   by decide,
   (avif_encode_frame_two_inits demo_engine demo_cfg demo_frame ⟨[], 0⟩ (by decide)
     (by decide)).1 34 ⟨.returned 0, ⟨[5, 6, 7], 3⟩, demo_trace⟩ (by decide) (by decide),
   (avif_encode_frame_two_inits demo_engine demo_cfg demo_frame ⟨[], 0⟩ (by decide)
     (by decide)).2 33 34 demo_engine_quiet (by decide),
   (avif_encode_frame_two_inits demo_engine { demo_cfg with quality := 32 } demo_frame
     ⟨[], 0⟩ (by decide) (by decide)).2 33 34 demo_engine_quiet (by decide)⟩

/-- C10: in either pass the calls are recorded with the engine's answers,
and a failing feed, of the frame or of a flush, is the
last call of the pass: the pass returns FRAME_ENCODE_FAILED at once, with the
buffer holding what had been appended before that feed.  If no feed fails the
pass returns OK after the first flush feed whose drain delivers no packet; a
flush whose drain delivers a packet, of the kept kind or not, is followed by
another flush.  An engine that stops handing out packets lets both passes
finish. -/
theorem pass_feed_failure_and_flush (E : Engine) (tr : List Event) (frame : aom_image_t)
    (b : avif_buffer) :
    (∀ fuel res b' tr', do_pass1 E fuel tr frame b = some (res, b', tr') →
      pass_outcome .AOM_CODEC_STATS_PKT tr frame b res b' tr' ∧
      ∃ new, tr' = tr ++ new ∧ faithful E tr new) ∧
    (∀ fuel res b' tr', do_pass2 E fuel tr frame b = some (res, b', tr') →
      pass_outcome .AOM_CODEC_CX_FRAME_PKT tr frame b res b' tr' ∧
      ∃ new, tr' = tr ++ new ∧ faithful E tr new) ∧
    (∀ N fuel, E.quiet_after N → N < fuel →
      (do_pass1 E fuel tr frame b).isSome = true ∧
      (do_pass2 E fuel tr frame b).isSome = true) := by
  refine ⟨?_, ?_, ?_⟩
  · intro fuel res b' tr' h
    rw [do_pass1_eq] at h
    refine ⟨pass_spec E _ fuel tr frame b res b' tr' h, ?_⟩
    obtain ⟨new, rfl, -⟩ := pass_facts_of E _ fuel tr frame b res b' tr' h
    exact ⟨new, rfl, pass_faithful E _ fuel tr frame b res b' new h⟩
  · intro fuel res b' tr' h
    rw [do_pass2_eq] at h
    refine ⟨pass_spec E _ fuel tr frame b res b' tr' h, ?_⟩
    obtain ⟨new, rfl, -⟩ := pass_facts_of E _ fuel tr frame b res b' tr' h
    exact ⟨new, rfl, pass_faithful E _ fuel tr frame b res b' new h⟩
  · intro N fuel hq hf
    rw [do_pass1_eq, do_pass2_eq]
    exact ⟨pass_total E _ N hq fuel hf tr frame b, pass_total E _ N hq fuel hf tr frame b⟩

/-- C10 at `flush_fail_engine` (pass 2: the second flush feed fails and is
the last call, the buffer keeps `[0, 5, 6, 7]`) and at `pass_engine` (pass 1:
the drain after the frame delivers only a frame packet, a flush follows; the
pass returns OK after the flush that delivers nothing). -/
theorem pass_feed_failure_and_flush_witness :
    (do_pass2 flush_fail_engine 7 [] demo_image ⟨[0], 1⟩ =
        some (AVIF_ERROR_FRAME_ENCODE, ⟨[0, 5, 6, 7], 4⟩, flush_fail_trace) ∧
      pass_outcome .AOM_CODEC_CX_FRAME_PKT [] demo_image ⟨[0], 1⟩ AVIF_ERROR_FRAME_ENCODE
        ⟨[0, 5, 6, 7], 4⟩ flush_fail_trace ∧
      ∃ new, flush_fail_trace = [] ++ new ∧ faithful flush_fail_engine [] new) ∧
    (do_pass1 pass_engine 7 [] demo_image ⟨[], 0⟩ = some (AVIF_OK, ⟨[1], 1⟩, pass_engine_trace) ∧
      pass_outcome .AOM_CODEC_STATS_PKT [] demo_image ⟨[], 0⟩ AVIF_OK ⟨[1], 1⟩
        pass_engine_trace ∧
      ∃ new, pass_engine_trace = [] ++ new ∧ faithful pass_engine [] new) ∧
    (pass_engine.quiet_after 6 ∧
      (do_pass1 pass_engine 7 [] demo_image ⟨[], 0⟩).isSome = true ∧
      (do_pass2 pass_engine 7 [] demo_image ⟨[], 0⟩).isSome = true) :=
  ⟨⟨by decide,
    (pass_feed_failure_and_flush flush_fail_engine [] demo_image ⟨[0], 1⟩).2.1 7 _ _ _
      (by decide)⟩,
   ⟨by decide,
    (pass_feed_failure_and_flush pass_engine [] demo_image ⟨[], 0⟩).1 7 _ _ _ (by decide)⟩,
   pass_engine_quiet,
   (pass_feed_failure_and_flush pass_engine [] demo_image ⟨[], 0⟩).2.2 6 7
     pass_engine_quiet (by decide)⟩

end Avif
